import Mathlib

/-!
Verification of the rotating file transport (`src/transports/log.ts`) of the
log-writer library. The TypeScript class `LogTransport` is shallowly embedded:
pure methods become Lean functions, the filesystem-mutating methods become
functions on an explicit store (filesystem + console emissions + the mutable
`currentDateString` field), and every fallible filesystem primitive is modelled
with an explicit `Except` error channel driven by a failure oracle, so that the
try/catch structure of the source is reproduced exactly.

Paths are modelled as (directory, fileName) pairs: the source always builds
paths with `join(dir, name)` and decomposes the active path with
`dirname`/`basename`/`extname`, so a transport is described by its directory,
base name and extension components directly.
-/

namespace LogWriter

/-- Log severity levels, from `core/interfaces.ts` (`enum LogLevel`). -/
inductive LogLevel where
  | error
  | warn
  | info
  | debug
  | trace
deriving DecidableEq

/-- Level filter, from `core/interfaces.ts` (`interface LevelFilter`). The
source field names are `include` and `exclude`; both are Lean keywords-adjacent
so they are rendered `incl` and `excl` here. Both fields are optional in the
source, and nothing in `LogTransport` prevents both being present at once. -/
structure LevelFilter where
  incl : Option (List LogLevel) := none
  excl : Option (List LogLevel) := none
deriving DecidableEq

/-- `LogTransport.shouldLog` (log.ts:84-98), translated clause for clause:
no filter admits everything; an `include` list, when present, is consulted
first and admits exactly its members; otherwise an `exclude` list, when
present, rejects exactly its members. -/
def shouldLog (filter : Option LevelFilter) (level : LogLevel) : Bool :=
  match filter with
  | none => true
  | some f =>
    match f.incl with
    | some lst => lst.contains level
    | none =>
      match f.excl with
      | some lst => !(lst.contains level)
      | none => true

/-- Rotation strategy, from `enum RotationMethod` (log.ts:20-23). -/
inductive RotationMethod where
  | size
  | date
deriving DecidableEq

/-- The three date format patterns of `type DateFormat` (log.ts:25):
`YYYY-MM-DD`, `YYYY-MM-DD-HH` and `YYYY-MM`. -/
inductive DateFormat where
  | ymd
  | ymdh
  | ym
deriving DecidableEq

/-- Errors thrown by the embedded code: the invalid-size-format `Error` of
`parseSize` (log.ts:357) and filesystem errors raised by `fs` primitives
(modelled abstractly by the failing operation's name and path). The
`Unknown size unit` branch of `parseSize` (log.ts:381) is unreachable —
every suffix matched by the regex is a key of the multiplier table — and has
no constructor here. -/
inductive JsError where
  | invalidSizeFormat (s : String)
  | fsError (op : String) (dir : String) (name : String)
deriving DecidableEq

/-- User-supplied construction options, from `interface LogTransportOptions`
(log.ts:27-36). All fields but `method` are optional. The unused
`archivePattern` field is omitted. -/
structure LogTransportOptions where
  method : RotationMethod
  maxSize : Option String := none
  maxFiles : Option Nat := none
  dateFormat : Option DateFormat := none
  archiveDir : Option String := none
  compress : Option Bool := none
  retentionDays : Option Nat := none
deriving DecidableEq

/-- Options after the constructor applied its defaults (log.ts:61-70). -/
structure ResolvedOptions where
  method : RotationMethod
  maxSize : String
  maxFiles : Nat
  dateFormat : DateFormat
  archiveDir : String
  compress : Bool
  retentionDays : Nat
deriving DecidableEq

/-- JavaScript `a || d` for an optional number `a`: `undefined` and `0` are
falsy, so both select the default. -/
def jsOrNat (v : Option Nat) (d : Nat) : Nat :=
  match v with
  | some n => if n = 0 then d else n
  | none => d

/-- JavaScript `a || d` for an optional string `a`: `undefined` and the empty
string are falsy. -/
def jsOrStr (v : Option String) (d : String) : String :=
  match v with
  | some s => if s = "" then d else s
  | none => d

/-- The constructor's option resolution (log.ts:61-70). Note that `maxSize`,
`maxFiles` and `retentionDays` are defaulted with `||`, so an explicit `0`
(or empty string) is replaced by the default, while `compress` uses an
explicit `!== undefined` test and so keeps an explicit `false`. -/
def resolveOptions (o : LogTransportOptions) (defaultArchiveDir : String) :
    ResolvedOptions :=
  { method := o.method
    maxSize := jsOrStr o.maxSize "10MB"
    maxFiles := jsOrNat o.maxFiles 5
    dateFormat := (o.dateFormat).getD .ymd
    archiveDir := jsOrStr o.archiveDir defaultArchiveDir
    compress := (o.compress).getD true
    retentionDays := jsOrNat o.retentionDays 30 }

/-! ### Date formatting (`formatDate`, log.ts:387-406)

A JavaScript `Date` is an instant; `toISOString` renders its UTC calendar
fields while `getHours` renders the hour of the host's local time. The
embedding carries the UTC fields explicitly and passes the host timezone
offset (minutes to add to UTC to obtain local time) as a parameter. The
rendering is faithful for years 0-9999, the range in which `toISOString`
uses the plain `YYYY-` form. -/

/-- UTC calendar fields of an instant, as rendered by `Date.toISOString`. -/
structure DateTime where
  year : Nat
  month : Nat
  day : Nat
  hour : Nat
  minute : Nat
  second : Nat
  millis : Nat
deriving DecidableEq

/-- `String.padStart(w, '0')`: left-pad with zeros up to width `w`. -/
def padZero (w : Nat) (s : String) : String :=
  String.mk (List.replicate (w - s.length) '0') ++ s

/-- `Date.toISOString()`: `YYYY-MM-DDTHH:mm:ss.sssZ` from the UTC fields. -/
def isoTimestamp (d : DateTime) : String :=
  padZero 4 (Nat.repr d.year) ++ "-" ++ padZero 2 (Nat.repr d.month) ++ "-" ++
    padZero 2 (Nat.repr d.day) ++ "T" ++ padZero 2 (Nat.repr d.hour) ++ ":" ++
    padZero 2 (Nat.repr d.minute) ++ ":" ++ padZero 2 (Nat.repr d.second) ++
    "." ++ padZero 3 (Nat.repr d.millis) ++ "Z"

/-- `Date.getHours()`: the hour of the host-local time of the instant,
where `tz` is the offset in minutes added to UTC to obtain local time. -/
def getHours (d : DateTime) (tz : Int) : Nat :=
  ((((d.hour * 60 + d.minute : Nat) : Int) + tz).emod 1440).toNat / 60

/-- `LogTransport.formatDate` (log.ts:387-406). `YYYY-MM-DD` takes
`toISOString().split('T')[0]`, rendered here as the prefix of the ISO
string before its first `T` (the UTC date); `YYYY-MM-DD-HH` appends
`getHours()` (the host-local hour) padded to two digits; `YYYY-MM` takes
`toISOString().substring(0, 7)`, the first seven characters (the ISO
string is ASCII, so UTF-16 units coincide with characters). The `default`
switch arm is unreachable under the `DateFormat` union type. -/
def formatDate (fmt : DateFormat) (d : DateTime) (tz : Int) : String :=
  match fmt with
  | .ymd => String.mk ((isoTimestamp d).data.takeWhile (fun c => c ≠ 'T'))
  | .ymdh =>
      String.mk ((isoTimestamp d).data.takeWhile (fun c => c ≠ 'T')) ++ "-" ++
        padZero 2 (Nat.repr (getHours d tz))
  | .ym => String.mk ((isoTimestamp d).data.take 7)

/-! ### Size parsing (`parseSize`, log.ts:354-385)

The regex `^(\d+(?:\.\d+)?)\s*([KMGT]?B?)$/i` is deterministic on its
alphabet (digits, dot, whitespace and the unit letters are pairwise
disjoint), so it is embedded as a committed left-to-right scan. The numeric
value is computed exactly over the integers: the matched number
`i.f` (with `l` fraction digits) times the multiplier `m`, floored, is
`(i * 10^l + f) * m / 10^l` in natural division; this agrees with
`Math.floor(parseFloat(...) * m)` on all inputs whose value is exactly
representable, in particular on every integer-valued size. -/

/-- Characters matched by the regex class `\s` (the common ASCII cases). -/
def isJsSpace (c : Char) : Bool :=
  c = ' ' || c = '\t' || c = '\n' || c = '\r' || c = '\x0b' || c = '\x0c'

/-- Decimal digits to their value (most significant first). -/
def digitsToNat (ds : List Char) : Nat :=
  ds.foldl (fun a c => a * 10 + (c.toNat - '0'.toNat)) 0

/-- Scan the number group `\d+(?:\.\d+)?`: returns the integer part, the
fraction part, the number of fraction digits, and the unconsumed suffix.
The fraction is taken exactly when a dot directly followed by a digit is
present, which is where the greedy regex with backtracking also lands. -/
def scanNumber (cs : List Char) :
    Option ((Nat × Nat × Nat) × List Char) :=
  let intDigits := cs.takeWhile Char.isDigit
  let rest := cs.dropWhile Char.isDigit
  if intDigits.isEmpty then none
  else
    match rest with
    | c :: rest2 =>
      if c = '.' then
        let fracDigits := rest2.takeWhile Char.isDigit
        if fracDigits.isEmpty then
          some ((digitsToNat intDigits, 0, 0), rest)
        else
          some ((digitsToNat intDigits, digitsToNat fracDigits,
                 fracDigits.length), rest2.dropWhile Char.isDigit)
      else some ((digitsToNat intDigits, 0, 0), rest)
    | [] => some ((digitsToNat intDigits, 0, 0), rest)

/-- The unit group `[KMGT]?B?` anchored at the end of the string, combined
with the multiplier table (log.ts:366-377): binary multiples, case
insensitive, trailing `B` optional. Returns `none` when the characters are
not exactly such a suffix. -/
def unitMultiplier (cs : List Char) : Option Nat :=
  match cs with
  | [] => some 1
  | [c] =>
    if c = 'B' || c = 'b' then some 1
    else if c = 'K' || c = 'k' then some 1024
    else if c = 'M' || c = 'm' then some (1024 * 1024)
    else if c = 'G' || c = 'g' then some (1024 * 1024 * 1024)
    else if c = 'T' || c = 't' then some (1024 * 1024 * 1024 * 1024)
    else none
  | [c1, c2] =>
    if c2 = 'B' || c2 = 'b' then
      if c1 = 'K' || c1 = 'k' then some 1024
      else if c1 = 'M' || c1 = 'm' then some (1024 * 1024)
      else if c1 = 'G' || c1 = 'g' then some (1024 * 1024 * 1024)
      else if c1 = 'T' || c1 = 't' then some (1024 * 1024 * 1024 * 1024)
      else none
    else none
  | _ => none

/-- `LogTransport.parseSize` (log.ts:354-385): match the size grammar and
return the floored byte count, or throw the invalid-size-format error. -/
def parseSize (s : String) : Except JsError Nat :=
  match scanNumber s.data with
  | none => .error (.invalidSizeFormat s)
  | some ((intPart, fracPart, fracLen), rest) =>
    match unitMultiplier (rest.dropWhile isJsSpace) with
    | none => .error (.invalidSizeFormat s)
    | some mult => .ok ((intPart * 10 ^ fracLen + fracPart) * mult / 10 ^ fracLen)

/-! ### Filesystem model

Files are keyed by (directory, fileName); a file carries its byte size, its
modification time (epoch milliseconds) and an abstract content tag used to
track which log segment a file holds across renames. Directories are a
plain list of existing directory paths. A failure oracle decides which
`fs` primitive invocations throw, letting the theorems quantify over
arbitrary filesystem failure patterns (full disk, permissions, concurrent
deletion). -/

/-- A path, decomposed as the containing directory and the file name. -/
abbrev PathKey := String × String

/-- Metadata-plus-identity of one file. -/
structure FileData where
  size : Nat
  mtime : Nat
  tag : Nat
deriving DecidableEq

/-- The filesystem: an association list of files and a list of directories. -/
structure FS where
  files : List (PathKey × FileData)
  dirs : List String
deriving DecidableEq

/-- First entry for a key in an association list of files. -/
def lookupFile : List (PathKey × FileData) → PathKey → Option FileData
  | [], _ => none
  | e :: rest, p => if e.1 = p then some e.2 else lookupFile rest p

/-- Look up a file's metadata. -/
def FS.statOf (fs : FS) (p : PathKey) : Option FileData :=
  lookupFile fs.files p

/-- `existsSync` on a file path. -/
def FS.existsFile (fs : FS) (p : PathKey) : Bool :=
  (fs.statOf p).isSome

/-- `existsSync` on a directory path. -/
def FS.existsDir (fs : FS) (d : String) : Bool :=
  fs.dirs.any (fun e => decide (e = d))

/-- Remove a file if present. -/
def FS.removeFile (fs : FS) (p : PathKey) : FS :=
  { fs with files := fs.files.filter (fun e => !(decide (e.1 = p))) }

/-- Create or replace a file. -/
def FS.setFile (fs : FS) (p : PathKey) (d : FileData) : FS :=
  { fs with files := (fs.removeFile p).files ++ [(p, d)] }

/-- `readdirSync`: the names of the files in a directory, in store order. -/
def FS.readdir (fs : FS) (dir : String) : List String :=
  (fs.files.filter (fun e => decide (e.1.1 = dir))).map (fun e => e.1.2)

/-- Which invocations of the fallible `fs` primitives throw. `existsSync`
never throws (it reports `false` on error). -/
structure Oracle where
  statFail : PathKey → Bool
  renameFail : PathKey → PathKey → Bool
  appendFail : PathKey → Bool
  writeFail : PathKey → Bool
  unlinkFail : PathKey → Bool
  readdirFail : String → Bool

/-- The oracle under which no filesystem operation fails. -/
def Oracle.benign : Oracle :=
  ⟨fun _ => false, fun _ _ => false, fun _ => false, fun _ => false,
   fun _ => false, fun _ => false⟩

/-- Observable console output: `console.error` (the write-failure
diagnostic), `console.log` (the raw-message fallback) and `console.warn`
(best-effort rotation warnings). Warn payloads are identified by the
source's literal message prefix. -/
inductive Emission where
  | consoleError (context : String) (err : JsError)
  | consoleLog (msg : String)
  | consoleWarn (context : String)
deriving DecidableEq

/-- The mutable world a transport instance acts on: the filesystem, the
console output so far, and the instance's `currentDateString` field. -/
structure Store where
  fs : FS
  emissions : List Emission
  currentDateString : Option String
deriving DecidableEq

/-- Computations of the embedded methods: state transformers over `Store`
with a `JsError` exception channel. State changes made before a throw
persist, exactly as JavaScript side effects do. -/
abbrev FsM (α : Type) : Type := Store → Except JsError α × Store

instance : Monad FsM where
  pure a := fun s => (.ok a, s)
  bind x f := fun s =>
    match x s with
    | (.ok a, s') => f a s'
    | (.error e, s') => (.error e, s')

/-- `try body catch (e) handler`. -/
def catchAll {α : Type} (body : FsM α) (handler : JsError → FsM α) : FsM α :=
  fun s =>
    match body s with
    | (.ok a, s') => (.ok a, s')
    | (.error e, s') => handler e s'

/-- Throw a JavaScript exception. -/
def throwE {α : Type} (e : JsError) : FsM α := fun s => (.error e, s)

/-- Emit a `console.warn` line (never throws). -/
def emitWarn (context : String) : FsM Unit :=
  fun s => (.ok (), { s with emissions := s.emissions ++ [.consoleWarn context] })

/-- Read the filesystem. -/
def getFS : FsM FS := fun s => (.ok s.fs, s)

/-- Read the instance's `currentDateString` field. -/
def getCurrentDate : FsM (Option String) := fun s => (.ok s.currentDateString, s)

/-- Assign the instance's `currentDateString` field. -/
def setCurrentDate (v : String) : FsM Unit :=
  fun s => (.ok (), { s with currentDateString := some v })

/-- `existsSync` on a file (never throws). -/
def jsExistsFile (p : PathKey) : FsM Bool := fun s => (.ok (s.fs.existsFile p), s)

/-- `existsSync` on a directory (never throws). -/
def jsExistsDir (d : String) : FsM Bool := fun s => (.ok (s.fs.existsDir d), s)

/-- `statSync`: throws when the oracle says so or the file is absent. -/
def jsStatSync (oracle : Oracle) (p : PathKey) : FsM FileData :=
  fun s =>
    if oracle.statFail p then (.error (.fsError "stat" p.1 p.2), s)
    else
      match s.fs.statOf p with
      | some d => (.ok d, s)
      | none => (.error (.fsError "stat" p.1 p.2), s)

/-- `renameSync`: moves `src` over `dst` (replacing any existing `dst`,
as POSIX rename does); throws when the oracle says so or `src` is absent. -/
def jsRenameSync (oracle : Oracle) (src dst : PathKey) : FsM Unit :=
  fun s =>
    if oracle.renameFail src dst then (.error (.fsError "rename" src.1 src.2), s)
    else
      match s.fs.statOf src with
      | some d => (.ok (), { s with fs := (s.fs.removeFile src).setFile dst d })
      | none => (.error (.fsError "rename" src.1 src.2), s)

/-- `appendFileSync`: grows the file and refreshes its mtime. -/
def jsAppendFileSync (oracle : Oracle) (p : PathKey) (bytes nowMs : Nat) :
    FsM Unit :=
  fun s =>
    if oracle.appendFail p then (.error (.fsError "append" p.1 p.2), s)
    else
      match s.fs.statOf p with
      | some d =>
        (.ok (), { s with fs := s.fs.setFile p ⟨d.size + bytes, nowMs, d.tag⟩ })
      | none => (.ok (), { s with fs := s.fs.setFile p ⟨bytes, nowMs, 0⟩ })

/-- `writeFileSync`: creates or truncates the file. A freshly created file
starts a new content segment, tagged `0`. -/
def jsWriteFileSync (oracle : Oracle) (p : PathKey) (bytes nowMs : Nat) :
    FsM Unit :=
  fun s =>
    if oracle.writeFail p then (.error (.fsError "write" p.1 p.2), s)
    else (.ok (), { s with fs := s.fs.setFile p ⟨bytes, nowMs, 0⟩ })

/-- `unlinkSync`: throws when the oracle says so or the file is absent. -/
def jsUnlinkSync (oracle : Oracle) (p : PathKey) : FsM Unit :=
  fun s =>
    if oracle.unlinkFail p then (.error (.fsError "unlink" p.1 p.2), s)
    else if s.fs.existsFile p then (.ok (), { s with fs := s.fs.removeFile p })
    else (.error (.fsError "unlink" p.1 p.2), s)

/-- `readdirSync`: throws when the oracle says so or the directory is absent. -/
def jsReaddirSync (oracle : Oracle) (dir : String) : FsM (List String) :=
  fun s =>
    if oracle.readdirFail dir then (.error (.fsError "readdir" dir ""), s)
    else if s.fs.existsDir dir then (.ok (s.fs.readdir dir), s)
    else (.error (.fsError "readdir" dir ""), s)

/-! ### The transport instance -/

/-- The immutable per-instance data of a `LogTransport`: the active file
path decomposed into directory, base name and extension (the source
recovers exactly these via `dirname`/`basename`/`extname`), the resolved
options, and the level filter. -/
structure TransportConfig where
  dir : String
  baseName : String
  ext : String
  options : ResolvedOptions
  levelFilter : Option LevelFilter
deriving DecidableEq

/-- The active file name, `basename(this.filePath)`. -/
def TransportConfig.fileName (c : TransportConfig) : String := c.baseName ++ c.ext

/-- The active file path `this.filePath` as a key. -/
def TransportConfig.filePath (c : TransportConfig) : PathKey :=
  (c.dir, c.fileName)

/-- `LogTransport.needsRotation` (log.ts:156-180), with the two helpers
`needsSizeRotation` and `needsDateRotation` inlined as in the source call
chain: absent active file means no rotation; SIZE compares
`statSync(...).size + byteLength(entry)` against `parseSize(maxSize)`
(which may throw); DATE compares the instance's `currentDateString` with
`formatDate(new Date())` under strict inequality (`undefined !== s` is
true). -/
def needsRotation (cfg : TransportConfig) (oracle : Oracle) (entryBytes : Nat)
    (now : DateTime) (tz : Int) : FsM Bool := do
  let ex ← jsExistsFile cfg.filePath
  if !ex then pure false
  else
    match cfg.options.method with
    | .size => do
      let st ← jsStatSync oracle cfg.filePath
      match parseSize cfg.options.maxSize with
      | .ok maxBytes => pure (decide (st.size + entryBytes > maxBytes))
      | .error e => throwE e
    | .date => do
      let cur ← getCurrentDate
      pure (decide (cur ≠ some (formatDate cfg.options.dateFormat now tz)))

/-- `LogTransport.archiveFileSync` (log.ts:471-489): move the source file
into the archive directory under the given name, inside a try/catch that
degrades any failure to a warning. On the synchronous path both branches
of the `compress` test perform the same plain rename (compression is
skipped). A missing source is silently ignored. -/
def archiveFileSync (cfg : TransportConfig) (oracle : Oracle)
    (sourceFile : PathKey) (archiveFileName : String) : FsM Unit :=
  catchAll
    (do
      let ex ← jsExistsFile sourceFile
      if !ex then pure ()
      else jsRenameSync oracle sourceFile (cfg.options.archiveDir, archiveFileName))
    (fun _ => emitWarn "Failed to archive file")

/-- `cleanupArchivedFiles`' per-file loop (log.ts:537-548): `statSync` may
throw (aborting the whole scan into the outer catch); an `unlinkSync`
failure is warned per file and the scan continues. -/
def cleanupScan (cfg : TransportConfig) (oracle : Oracle) (cutoff : Int) :
    List String → FsM Unit
  | [] => pure ()
  | name :: rest => do
    let st ← jsStatSync oracle (cfg.options.archiveDir, name)
    if (st.mtime : Int) < cutoff then
      catchAll (jsUnlinkSync oracle (cfg.options.archiveDir, name))
        (fun _ => emitWarn "Failed to delete expired archive file")
    else pure ()
    cleanupScan cfg oracle cutoff rest

/-- `LogTransport.cleanupArchivedFiles` (log.ts:525-552): skipped entirely
when the resolved `retentionDays` is `0`; otherwise delete every archive
entry whose mtime is older than now minus the retention window, inside a
try/catch that degrades any failure to a warning. -/
def cleanupArchivedFiles (cfg : TransportConfig) (oracle : Oracle)
    (nowMs : Nat) : FsM Unit :=
  if cfg.options.retentionDays = 0 then pure ()
  else
    let cutoff : Int :=
      (nowMs : Int) - (cfg.options.retentionDays * 24 * 60 * 60 * 1000 : Nat)
    catchAll
      (do
        let ex ← jsExistsDir cfg.options.archiveDir
        if !ex then pure ()
        else do
          let files ← jsReaddirSync oracle cfg.options.archiveDir
          cleanupScan cfg oracle cutoff files)
      (fun _ => emitWarn "Failed to cleanup archived files")

/-- The numbered sibling `name.i.ext` in the active directory. -/
def numberedName (cfg : TransportConfig) (i : Nat) : String :=
  cfg.baseName ++ "." ++ Nat.repr i ++ cfg.ext

/-- The body of the `for (let i = maxFiles - 1; i >= 1; i--)` loop of
`rotateBySizeStrategySync` (log.ts:215-233), over the descending index
list: the sibling at `maxFiles - 1` is evicted into the archive, any other
existing sibling is renamed one slot up (each rename individually guarded
by try/catch). -/
def sizeShiftLoop (cfg : TransportConfig) (oracle : Oracle) :
    List Nat → FsM Unit
  | [] => pure ()
  | i :: rest => do
    let oldFile : PathKey := (cfg.dir, numberedName cfg i)
    let newFile : PathKey := (cfg.dir, numberedName cfg (i + 1))
    let ex ← jsExistsFile oldFile
    if ex then
      if i = cfg.options.maxFiles - 1 then
        archiveFileSync cfg oracle oldFile (numberedName cfg i)
      else
        catchAll (jsRenameSync oracle oldFile newFile)
          (fun _ => emitWarn "Failed to rename")
    else pure ()
    sizeShiftLoop cfg oracle rest

/-- The descending index list `maxFiles - 1, ..., 1`. -/
def downIndices (maxFiles : Nat) : List Nat :=
  (List.range' 1 (maxFiles - 1)).reverse

/-- `LogTransport.rotateBySizeStrategySync` (log.ts:208-245): shift/evict
the numbered siblings, move the active file to `name.1.ext` (guarded), then
run retention cleanup. -/
def rotateBySizeStrategySync (cfg : TransportConfig) (oracle : Oracle)
    (nowMs : Nat) : FsM Unit := do
  sizeShiftLoop cfg oracle (downIndices cfg.options.maxFiles)
  catchAll (jsRenameSync oracle cfg.filePath (cfg.dir, numberedName cfg 1))
    (fun _ => emitWarn "Failed to rotate")
  cleanupArchivedFiles cfg oracle nowMs

/-- The candidate archive file names of date rotation (log.ts:293-304):
index `0` is `name.{dateString}{ext}`, index `k ≥ 1` is
`name.{dateString}.{k}{ext}`. -/
def candidateName (cfg : TransportConfig) (dateString : String) (k : Nat) :
    String :=
  if k = 0 then cfg.baseName ++ "." ++ dateString ++ cfg.ext
  else cfg.baseName ++ "." ++ dateString ++ "." ++ Nat.repr k ++ cfg.ext

/-- A candidate name is free when neither it nor its `.gz` form exists in
the archive directory (the `while` condition of log.ts:300-301, negated). -/
def isFreeName (fs : FS) (archiveDir name : String) : Bool :=
  !(fs.existsFile (archiveDir, name)) && !(fs.existsFile (archiveDir, name ++ ".gz"))

/-- The `while` loop of log.ts:296-304 searching for a free archive name,
as fuelled structural recursion. The loop only reads the (unchanging)
filesystem, so the fuel `2 * fs.files.length + 2` chosen by the caller
always suffices: candidate names are pairwise distinct decimal-suffixed
strings and a single file can coincide with at most two of them (its own
name and its name stripped of `.gz`), so among the first
`2 * fs.files.length + 1` candidates one is free and the loop exits
before the fuel runs out. -/
def findFreeGo (cfg : TransportConfig) (fs : FS) (dateString : String) :
    Nat → Nat → String → String
  | 0, _, cur => cur
  | fuel + 1, counter, cur =>
    if !(isFreeName fs cfg.options.archiveDir cur) then
      findFreeGo cfg fs dateString fuel (counter + 1)
        (candidateName cfg dateString counter)
    else cur

/-- The resolved collision-free archive file name of date rotation. -/
def findFreeArchiveName (cfg : TransportConfig) (fs : FS)
    (dateString : String) : String :=
  findFreeGo cfg fs dateString (2 * fs.files.length + 2) 1
    (candidateName cfg dateString 0)

/-- The committed scan of the date capture group
`\d{4}-\d{2}-\d{2}(?:-\d{2})?(?:\.\d+)?` of `cleanupOldDateFiles`'
file-name regex (log.ts:421-423). The regex is deterministic on this
alphabet: whenever an optional group's opening character is present but
the group cannot complete, no later alternative can consume that
character, so committing equals backtracking. -/
def dateCoreMatch (cs : List Char) : Bool :=
  match cs with
  | y1 :: y2 :: y3 :: y4 :: '-' :: m1 :: m2 :: '-' :: d1 :: d2 :: rest =>
    if !([y1, y2, y3, y4, m1, m2, d1, d2].all Char.isDigit) then false
    else
      match rest with
      | [] => true
      | '-' :: h1 :: h2 :: rest2 =>
        if !(h1.isDigit && h2.isDigit) then false
        else
          match rest2 with
          | [] => true
          | '.' :: ds => !ds.isEmpty && ds.all Char.isDigit
          | _ => false
      | '.' :: ds => !ds.isEmpty && ds.all Char.isDigit
      | _ => false
  | _ => false

/-- Strip a literal from the front of a character list. -/
def dropLead : List Char → List Char → Option (List Char)
  | [], rest => some rest
  | _ :: _, [] => none
  | c :: cs, d :: ds => if c = d then dropLead cs ds else none

/-- Strip a literal from the back of a character list. -/
def dropTail (suffix cs : List Char) : Option (List Char) :=
  (dropLead suffix.reverse cs.reverse).map List.reverse

/-- The file-name test of `cleanupOldDateFiles` (log.ts:419-425): the name
matches `^base\.(dateCore)\.?ext$`. The optional dot before the extension
is deterministic as well: the capture group never ends in a dot, so a dot
there must be the optional one. -/
def dateFilePattern (cfg : TransportConfig) (name : String) : Bool :=
  match dropLead (cfg.baseName ++ ".").data name.data with
  | none => false
  | some rest =>
    match dropTail cfg.ext.data rest with
    | none => false
    | some mid =>
      match mid.reverse with
      | '.' :: mid2 => dateCoreMatch mid2.reverse
      | _ => dateCoreMatch mid

/-- Collect `statSync` results for the matched names (log.ts:426-430);
any stat throw propagates to the enclosing catch. -/
def statAll (cfg : TransportConfig) (oracle : Oracle) :
    List String → FsM (List (String × FileData))
  | [] => pure []
  | name :: rest => do
    let st ← jsStatSync oracle (cfg.dir, name)
    let tail ← statAll cfg oracle rest
    pure ((name, st) :: tail)

/-- Stable insertion of one element into a list sorted by descending mtime:
the element goes after existing entries with mtime at least its own. -/
def insertByMtimeDesc (x : String × FileData) :
    List (String × FileData) → List (String × FileData)
  | [] => [x]
  | y :: ys =>
    if y.2.mtime ≥ x.2.mtime then y :: insertByMtimeDesc x ys
    else x :: y :: ys

/-- The `sort((a, b) => b.mtime - a.mtime)` of log.ts:431: stable sort by
modification time, newest first (V8's `Array.sort` is stable). -/
def sortByMtimeDesc : List (String × FileData) → List (String × FileData)
  | [] => []
  | x :: xs => insertByMtimeDesc x (sortByMtimeDesc xs)

/-- The deletion loop of log.ts:436-442: each `unlinkSync` individually
guarded, a failure warns and the loop continues. -/
def deleteEach (cfg : TransportConfig) (oracle : Oracle) :
    List (String × FileData) → FsM Unit
  | [] => pure ()
  | f :: rest => do
    catchAll (jsUnlinkSync oracle (cfg.dir, f.1))
      (fun _ => emitWarn "Failed to delete old log file")
    deleteEach cfg oracle rest

/-- `LogTransport.cleanupOldDateFiles` (log.ts:408-447): in the active
directory, find the date-suffixed siblings of the active file, sort them
newest-first by mtime and delete those beyond `maxFiles`; the whole pass is
wrapped in a try/catch that degrades any failure to a warning. -/
def cleanupOldDateFiles (cfg : TransportConfig) (oracle : Oracle) : FsM Unit :=
  catchAll
    (do
      let files ← jsReaddirSync oracle cfg.dir
      let logFiles := files.filter (fun f => dateFilePattern cfg f)
      let stats ← statAll cfg oracle logFiles
      let sorted := sortByMtimeDesc stats
      if sorted.length > cfg.options.maxFiles then
        deleteEach cfg oracle (sorted.drop cfg.options.maxFiles)
      else pure ())
    (fun _ => emitWarn "Failed to cleanup old date-based log files")

/-- `LogTransport.rotateByDateStrategySync` (log.ts:286-318): archive the
active file under the `currentDateString`-derived name (searching past
collisions in both plain and `.gz` form), advance `currentDateString` to
now's bucket, run retention cleanup, and — whenever the resolved
`maxFiles` is truthy, i.e. nonzero — run the extra active-directory
cleanup pass. The source reads `this.currentDateString!`; a JavaScript
`undefined` would be interpolated as the text `undefined`. -/
def rotateByDateStrategySync (cfg : TransportConfig) (oracle : Oracle)
    (now : DateTime) (nowMs : Nat) (tz : Int) : FsM Unit := do
  let cur ← getCurrentDate
  let dateString := cur.getD "undefined"
  let fs ← getFS
  let finalArchiveFileName := findFreeArchiveName cfg fs dateString
  archiveFileSync cfg oracle cfg.filePath finalArchiveFileName
  setCurrentDate (formatDate cfg.options.dateFormat now tz)
  cleanupArchivedFiles cfg oracle nowMs
  if cfg.options.maxFiles ≠ 0 then cleanupOldDateFiles cfg oracle
  else pure ()

/-- `LogTransport.rotateFileSync` (log.ts:182-193): no-op when the active
file is absent, otherwise dispatch on the rotation method. -/
def rotateFileSync (cfg : TransportConfig) (oracle : Oracle) (now : DateTime)
    (nowMs : Nat) (tz : Int) : FsM Unit := do
  let ex ← jsExistsFile cfg.filePath
  if !ex then pure ()
  else
    match cfg.options.method with
    | .size => rotateBySizeStrategySync cfg oracle nowMs
    | .date => rotateByDateStrategySync cfg oracle now nowMs tz

/-- The body of the `try` block of `LogTransport.write` (log.ts:137-148):
decide rotation, rotate synchronously if needed, then append to the active
file when it exists, else create it. -/
def writeTryBlock (cfg : TransportConfig) (oracle : Oracle) (entryBytes : Nat)
    (now : DateTime) (nowMs : Nat) (tz : Int) : FsM Unit := do
  let rot ← needsRotation cfg oracle entryBytes now tz
  if rot then rotateFileSync cfg oracle now nowMs tz else pure ()
  let ex ← jsExistsFile cfg.filePath
  if ex then jsAppendFileSync oracle cfg.filePath entryBytes nowMs
  else jsWriteFileSync oracle cfg.filePath entryBytes nowMs

/-- The log line `LogTransport.write` builds (log.ts:134-135):
`toISOString() + ' ' + message + '\n'`, measured in UTF-8 bytes. -/
def entryBytesOf (now : DateTime) (message : String) : Nat :=
  (isoTimestamp now ++ " " ++ message ++ "\n").utf8ByteSize

/-- `LogTransport.write` (log.ts:127-154). The return type records whether
an exception escapes to the caller; the body is the level-filter guard, the
try block, and the catch clause that emits the diagnostic (`console.error`)
and the raw message (`console.log`) on any thrown error. -/
def write (cfg : TransportConfig) (oracle : Oracle) (level : LogLevel)
    (message : String) (now : DateTime) (nowMs : Nat) (tz : Int)
    (s : Store) : Except JsError Store :=
  if !(shouldLog cfg.levelFilter level) then .ok s
  else
    match writeTryBlock cfg oracle (entryBytesOf now message) now nowMs tz s with
    | (.ok _, s') => .ok s'
    | (.error e, s') =>
      .ok { s' with
            emissions := s'.emissions ++
              [.consoleError "Failed to write to log file:" e,
               .consoleLog message] }

/-- `rotateByDateStrategySync` with the trailing `if (this.options.maxFiles)`
guard removed, used to state that the guard is dead for every transport
built by the constructor (the resolved `maxFiles` is never `0`). -/
def rotateByDateAlwaysCleanup (cfg : TransportConfig) (oracle : Oracle)
    (now : DateTime) (nowMs : Nat) (tz : Int) : FsM Unit := do
  let cur ← getCurrentDate
  let dateString := cur.getD "undefined"
  let fs ← getFS
  let finalArchiveFileName := findFreeArchiveName cfg fs dateString
  archiveFileSync cfg oracle cfg.filePath finalArchiveFileName
  setCurrentDate (formatDate cfg.options.dateFormat now tz)
  cleanupArchivedFiles cfg oracle nowMs
  cleanupOldDateFiles cfg oracle

/-- Whether an `Except` result of `parseSize` is a success. -/
def exceptOk (r : Except JsError Nat) : Bool :=
  match r with
  | .ok _ => true
  | .error _ => false

/-- The 27 character sequences matched by the unit group `[KMGT]?B?` under
the `i` flag, written out: the empty unit, each single letter in both
cases, and each letter-plus-B pair in all four case combinations. -/
def unitForms : List (List Char) :=
  [[],
   ['B'], ['b'], ['K'], ['k'], ['M'], ['m'], ['G'], ['g'], ['T'], ['t'],
   ['K', 'B'], ['K', 'b'], ['k', 'B'], ['k', 'b'],
   ['M', 'B'], ['M', 'b'], ['m', 'B'], ['m', 'b'],
   ['G', 'B'], ['G', 'b'], ['g', 'B'], ['g', 'b'],
   ['T', 'B'], ['T', 'b'], ['t', 'B'], ['t', 'b']]

/-- The declarative size grammar, following the specification's wording:
a nonempty run of decimal digits, an optional fraction (a dot followed by
a nonempty run of digits), optional whitespace, and a unit from the
case-insensitive `[KMGT]?B?` family. -/
def sizeGrammar (s : String) : Prop :=
  ∃ ds fsd ws u : List Char, ∃ hasFrac : Bool,
    s.data = ds ++ (if hasFrac then '.' :: fsd else []) ++ ws ++ u ∧
    ds ≠ [] ∧ (∀ c ∈ ds, c.isDigit) ∧
    (hasFrac = true → (fsd ≠ [] ∧ ∀ c ∈ fsd, c.isDigit)) ∧
    (hasFrac = false → fsd = []) ∧
    (∀ c ∈ ws, isJsSpace c) ∧
    u ∈ unitForms

/-! ### Concrete fixtures

Small filesystem scenarios used to evaluate the embedded code at explicit
inputs. Content tags number the log segments in the order they were
produced, so tag `k` identifies the active file content at the time of the
`k`-th rotation. -/

/-- A SIZE transport with `maxFiles = 2` as in the archiving scenario of
the specification; archive directory `arch`, active file `d/app.log`. -/
def sizeDemoCfg : TransportConfig :=
  ⟨"d", "app", ".log", ⟨.size, "10MB", 2, .ymd, "arch", false, 30⟩, none⟩

/-- Starting state: the active file holds segment 1. -/
def sizeDemoStart : Store :=
  ⟨⟨[(("d", "app.log"), ⟨100, 10, 1⟩)], ["d", "arch"]⟩, [], none⟩

/-- One size-rotation pass at the given clock. -/
def sizeDemoRot (nowMs : Nat) (s : Store) : Store :=
  (rotateBySizeStrategySync sizeDemoCfg Oracle.benign nowMs s).2

/-- Refill the active file with the next segment (the writes between two
rotations). -/
def sizeDemoRefill (mt tag : Nat) (s : Store) : Store :=
  { s with fs := s.fs.setFile ("d", "app.log") ⟨100, mt, tag⟩ }

/-- The state after three rotations with `maxFiles = 2`: rotate segment 1,
refill with segment 2, rotate, refill with segment 3, rotate. -/
def sizeDemoFinal : Store :=
  sizeDemoRot 1002 (sizeDemoRefill 30 3
    (sizeDemoRot 1001 (sizeDemoRefill 20 2
      (sizeDemoRot 1000 sizeDemoStart))))

/-- The options a DATE transport resolves when `maxFiles` is not given at
construction. -/
def dateDemoOptions : ResolvedOptions :=
  resolveOptions ⟨.date, none, none, none, none, none, none⟩ "arch"

/-- A DATE transport constructed without `maxFiles`. -/
def dateDemoCfg : TransportConfig :=
  ⟨"d", "app", ".log", dateDemoOptions, none⟩

/-- Active directory holding the active file (a stale bucket `2025-01-07`)
and six date-suffixed siblings `app.2025-01-01.log` … `app.2025-01-06.log`
with increasing modification times. -/
def dateDemoStore : Store :=
  ⟨⟨(("d", "app.log"), ⟨50, 100, 1⟩) ::
      (List.range' 1 6).map
        (fun n => (("d", "app.2025-01-0" ++ Nat.repr n ++ ".log"),
                   ⟨10, n, 10 + n⟩)),
    ["d", "arch"]⟩, [], some "2025-01-07"⟩

/-- The state after one date rotation of `dateDemoStore` on 2025-01-08. -/
def dateDemoFinal : Store :=
  (rotateByDateStrategySync dateDemoCfg Oracle.benign
    ⟨2025, 1, 8, 0, 0, 0, 0⟩ 1000 0 dateDemoStore).2

/-- The options a transport resolves when constructed with an explicit
`retentionDays: 0`. -/
def retenDemoOptions : ResolvedOptions :=
  resolveOptions ⟨.size, none, none, none, none, none, some 0⟩ "arch"

/-- A SIZE transport constructed with `retentionDays: 0`. -/
def retenDemoCfg : TransportConfig :=
  ⟨"d", "app", ".log", retenDemoOptions, none⟩

/-- An active file plus an archived file `arch/old.log` whose modification
time (epoch `0`) is more than 30 days before the clock used below. -/
def retenDemoStore : Store :=
  ⟨⟨[(("d", "app.log"), ⟨100, 2592000000, 1⟩),
     (("arch", "old.log"), ⟨10, 0, 9⟩)], ["d", "arch"]⟩, [], none⟩

/-- The state after one rotation pass at epoch `2592000001` ms (30 days
plus 1 ms). -/
def retenDemoFinal : Store :=
  (rotateBySizeStrategySync retenDemoCfg Oracle.benign 2592000001
    retenDemoStore).2

/-- The options a SIZE transport resolves for `maxSize: "bogus"`. -/
def bogusSizeCfg : TransportConfig :=
  ⟨"d", "app", ".log",
   resolveOptions ⟨.size, some "bogus", none, none, none, none, none⟩ "arch",
   none⟩

/-- A store in which the active file already exists, so the next write is
the first one that consults the size check. -/
def bogusSizeStore : Store :=
  ⟨⟨[(("d", "app.log"), ⟨5, 10, 1⟩)], ["d", "arch"]⟩, [], none⟩

/-- An oracle under which every append and every create throws (full disk),
while metadata operations still succeed. -/
def fullDiskOracle : Oracle :=
  ⟨fun _ => false, fun _ _ => false, fun _ => true, fun _ => true,
   fun _ => false, fun _ => false⟩

/-- A SIZE transport with `maxSize: "100B"`, for exercising the rotation
threshold. -/
def thresholdCfg : TransportConfig :=
  ⟨"d", "app", ".log", ⟨.size, "100B", 5, .ymd, "arch", true, 30⟩, none⟩

/-- An active file of 90 bytes under `thresholdCfg`. -/
def thresholdStore : Store :=
  ⟨⟨[(("d", "app.log"), ⟨90, 10, 1⟩)], ["d", "arch"]⟩, [], none⟩

/-- A DATE scenario in which the bucket-named archive file exists in plain
form and its first numeric variant exists in compressed form, so the
collision search must land on the `.2` variant. -/
def dateCollisionStore : Store :=
  ⟨⟨[(("d", "app.log"), ⟨50, 100, 1⟩),
     (("arch", "app.2025-01-07.log"), ⟨10, 99, 7⟩),
     (("arch", "app.2025-01-07.1.log.gz"), ⟨10, 98, 8⟩)], ["d", "arch"]⟩,
   [], some "2025-01-07"⟩

/-! ## Theorems -/

@[simp] theorem FsM.bind_apply {α β : Type} (x : FsM α) (f : α → FsM β)
    (s : Store) :
    (x >>= f) s =
      match x s with
      | (.ok a, s') => f a s'
      | (.error e, s') => (.error e, s') := rfl

@[simp] theorem FsM.pure_apply {α : Type} (a : α) (s : Store) :
    (pure a : FsM α) s = (.ok a, s) := rfl

theorem FS.existsFile_iff_statOf (fs : FS) (p : PathKey) :
    fs.existsFile p = true ↔ ∃ d, fs.statOf p = some d := by
  unfold FS.existsFile
  exact Option.isSome_iff_exists

theorem FS.existsFile_false_statOf (fs : FS) (p : PathKey)
    (h : fs.existsFile p = false) : fs.statOf p = none := by
  rcases hs : fs.statOf p with _ | d
  · rfl
  · rw [(fs.existsFile_iff_statOf p).mpr ⟨d, hs⟩] at h
    cases h

/-- C10. When a `LevelFilter` carries both an `include` and an `exclude`
list, `shouldLog` consults only the `include` list: it admits a level
exactly when the `include` list contains it, and the `exclude` list has no
influence (the `include` branch returns before the `exclude` branch is
reached, log.ts:88-95). -/
theorem shouldLog_both_lists_uses_include_only (f : LevelFilter)
    (level : LogLevel) (inc exc : List LogLevel)
    (hin : f.incl = some inc) (_hex : f.excl = some exc) :
    (shouldLog (some f) level = true ↔ level ∈ inc) := by
  simp [shouldLog, hin]

/-- Witness for C10: a filter that both includes and excludes `warn`
admits `warn`, because only the include list is consulted. -/
theorem shouldLog_both_lists_witness :
    shouldLog
      (some ⟨some [LogLevel.error, LogLevel.warn], some [LogLevel.warn]⟩)
      LogLevel.warn = true ↔
      LogLevel.warn ∈ [LogLevel.error, LogLevel.warn] :=
  shouldLog_both_lists_uses_include_only _ _ _ _ rfl rfl

/-- C9 counterexample. The HOUR bucket is not a function of the instant and
granularity alone: at the UTC instant 2025-01-01T00:30Z the bucket string
differs between a host in UTC and a host one hour west, because
`formatDate` combines the UTC date of `toISOString` with the host-local
hour of `getHours` (log.ts:394-399). -/
theorem formatDate_hour_depends_on_timezone :
    formatDate .ymdh ⟨2025, 1, 1, 0, 30, 0, 0⟩ 0 ≠
      formatDate .ymdh ⟨2025, 1, 1, 0, 30, 0, 0⟩ (-60) := by decide

/-- C9 amended. The DAY and MONTH buckets are pure functions of the UTC
instant and granularity (independent of the host timezone); the HOUR
bucket is the UTC calendar date of the instant extended with the
host-local hour, which coincides with the UTC hour only when the host
offset is zero. -/
theorem formatDate_bucket_shapes :
    (∀ (d : DateTime) (tz tz' : Int),
        formatDate .ymd d tz = formatDate .ymd d tz') ∧
    (∀ (d : DateTime) (tz tz' : Int),
        formatDate .ym d tz = formatDate .ym d tz') ∧
    (∀ (d : DateTime) (tz : Int),
        formatDate .ymdh d tz =
          formatDate .ymd d tz ++ "-" ++ padZero 2 (Nat.repr (getHours d tz))) ∧
    (∀ d : DateTime, d.hour < 24 → d.minute < 60 → getHours d 0 = d.hour) := by
  refine ⟨fun d tz tz' => rfl, fun d tz tz' => rfl, fun d tz => rfl,
          fun d hh hm => ?_⟩
  unfold getHours
  rw [add_zero]
  show ((((d.hour * 60 + d.minute : Nat) : Int) % 1440).toNat) / 60 = d.hour
  omega

/-- Witness for C9 amended: at 05:30 UTC with a zero host offset the HOUR
bucket's hour is the UTC hour. -/
theorem formatDate_bucket_shapes_witness :
    getHours ⟨2025, 1, 1, 5, 30, 0, 0⟩ 0 = 5 :=
  formatDate_bucket_shapes.2.2.2 ⟨2025, 1, 1, 5, 30, 0, 0⟩ (by decide) (by decide)

/-- C3 (code bug). A transport constructed with an explicit
`retentionDays: 0` does not skip retention cleanup: the constructor's
`options.retentionDays || 30` (log.ts:68) replaces the falsy `0` with the
default `30`, defeating both the option's documented meaning
(`0 = keep forever`, log.ts:34) and the guard inside
`cleanupArchivedFiles` (log.ts:526). Evaluated at the failing input: the
resolved retention is 30 days, and a rotation pass at 30 days + 1 ms
deletes the old archived file that the claim says is never deleted. -/
theorem retentionZero_is_resolved_to_30_and_deletes :
    retenDemoOptions.retentionDays = 30 ∧
    retenDemoStore.fs.existsFile ("arch", "old.log") = true ∧
    retenDemoFinal.fs.existsFile ("arch", "old.log") = false := by
  refine ⟨rfl, rfl, ?_⟩
  decide

/-- C4 counterexample. With `maxSize: "bogus"` under the SIZE method, the
first write that consults the size check does not propagate the
invalid-size-format error: `parseSize` throws inside `needsRotation`,
which `write` calls inside its catch-all try block (log.ts:137-153), so
the caller receives a normal return and the error is downgraded to the
console fallback (diagnostic on the error channel plus the raw message). -/
theorem invalidMaxSize_is_caught_not_propagated :
    write bogusSizeCfg Oracle.benign .info "hello"
        ⟨2025, 1, 1, 0, 0, 0, 0⟩ 1000 0 bogusSizeStore =
      .ok { bogusSizeStore with
            emissions :=
              [.consoleError "Failed to write to log file:"
                 (.invalidSizeFormat "bogus"),
               .consoleLog "hello"] } := by
  rfl

/-- C5 counterexample. SIZE rotation with `maxFiles = 2`, three rotations
(segments tagged 1, 2, 3 in rotation order): the archive directory does
end up with exactly one file, but that file holds segment 2, not the
oldest rotated segment 1 — the second eviction renamed over the archived
copy of segment 1 (log.ts:482-484 via `renameSync`, which replaces an
existing destination), so segment 1 survives nowhere. -/
theorem sizeRotation_archive_is_not_oldest_segment :
    FS.readdir sizeDemoFinal.fs "arch" = ["app.1.log"] ∧
    (sizeDemoFinal.fs.statOf ("arch", "app.1.log")).map FileData.tag = some 2 ∧
    sizeDemoFinal.fs.files.all (fun e => decide (e.2.tag ≠ 1)) = true := by
  decide

/-- C5 amended. Under SIZE rotation with `maxFiles = 2`, after three
rotations exactly one file resides in the archive directory and at most
`maxFiles - 1` numbered siblings remain in the active directory; the
archived file is the oldest file still in existence, but it is the second
rotated segment, not the oldest one — each eviction renames over the
previously archived file, so only the most recently evicted segment
survives in the archive. -/
theorem sizeRotation_final_layout :
    FS.readdir sizeDemoFinal.fs "arch" = ["app.1.log"] ∧
    (sizeDemoFinal.fs.statOf ("arch", "app.1.log")).map FileData.tag = some 2 ∧
    FS.readdir sizeDemoFinal.fs "d" = ["app.1.log"] ∧
    (sizeDemoFinal.fs.statOf ("d", "app.1.log")).map FileData.tag = some 3 := by
  decide

/-- C8 counterexample. A DATE transport constructed without `maxFiles`
still runs the extra active-directory cleanup pass on rotation: the
constructor resolves `maxFiles` to the default 5 via `||` (log.ts:64), so
the guard `if (this.options.maxFiles)` (log.ts:315) is met, and with six
date-suffixed siblings the rotation deletes the oldest one. -/
theorem dateRotation_cleanup_runs_without_explicit_maxFiles :
    dateDemoCfg.options =
      resolveOptions ⟨.date, none, none, none, none, none, none⟩ "arch" ∧
    dateDemoCfg.options.maxFiles = 5 ∧
    dateDemoStore.fs.existsFile ("d", "app.2025-01-01.log") = true ∧
    dateDemoFinal.fs.existsFile ("d", "app.2025-01-01.log") = false := by
  refine ⟨rfl, rfl, rfl, ?_⟩
  decide

/-- C8 amended. The extra active-directory cleanup pass of DATE rotation
runs on every rotation, not only when `maxFiles` was explicitly set: for
every transport whose options come out of the constructor's resolution,
the resolved `maxFiles` is nonzero (absent and `0` are both replaced by
the default 5), so the guard `if (this.options.maxFiles)` always passes
and `rotateByDateStrategySync` coincides with the variant that cleans up
unconditionally. -/
theorem dateRotation_cleanup_guard_is_dead (o : LogTransportOptions)
    (dflt : String) (cfg : TransportConfig) (oracle : Oracle) (now : DateTime)
    (nowMs : Nat) (tz : Int) (h : cfg.options = resolveOptions o dflt) :
    cfg.options.maxFiles ≠ 0 ∧
    rotateByDateStrategySync cfg oracle now nowMs tz =
      rotateByDateAlwaysCleanup cfg oracle now nowMs tz := by
  have hne : cfg.options.maxFiles ≠ 0 := by
    rw [h]
    show jsOrNat o.maxFiles 5 ≠ 0
    unfold jsOrNat
    match o.maxFiles with
    | none => simp
    | some n =>
      by_cases hn : n = 0 <;> simp [hn]
  refine ⟨hne, ?_⟩
  funext s
  simp [rotateByDateStrategySync, rotateByDateAlwaysCleanup, hne]

/-- Witness for C8 amended: the DATE transport constructed without
`maxFiles` has nonzero resolved `maxFiles` and its rotation equals the
unconditionally-cleaning variant. -/
theorem dateRotation_cleanup_guard_is_dead_witness :
    dateDemoCfg.options.maxFiles ≠ 0 ∧
    rotateByDateStrategySync dateDemoCfg Oracle.benign
        ⟨2025, 1, 8, 0, 0, 0, 0⟩ 1000 0 =
      rotateByDateAlwaysCleanup dateDemoCfg Oracle.benign
        ⟨2025, 1, 8, 0, 0, 0, 0⟩ 1000 0 :=
  dateRotation_cleanup_guard_is_dead
    ⟨.date, none, none, none, none, none, none⟩ "arch" dateDemoCfg
    Oracle.benign ⟨2025, 1, 8, 0, 0, 0, 0⟩ 1000 0 rfl

/-- C2. `needsRotation` (log.ts:156-180): `false` whenever the active file
does not exist; under SIZE (with a parsable `maxSize` and a successful
stat) it reports `true` exactly when the current size plus the pending
entry's bytes strictly exceeds the parsed limit; under DATE it reports
`true` exactly when the current bucket string differs from the last
recorded one. The store is returned unchanged: the decision only reads. -/
theorem needsRotation_spec (cfg : TransportConfig) (oracle : Oracle)
    (store : Store) (entryBytes : Nat) (now : DateTime) (tz : Int)
    (hstat : oracle.statFail cfg.filePath = false) :
    (store.fs.existsFile cfg.filePath = false →
       needsRotation cfg oracle entryBytes now tz store = (.ok false, store)) ∧
    (∀ d maxB, store.fs.statOf cfg.filePath = some d →
       cfg.options.method = .size →
       parseSize cfg.options.maxSize = .ok maxB →
       needsRotation cfg oracle entryBytes now tz store =
         (.ok (decide (d.size + entryBytes > maxB)), store)) ∧
    (store.fs.existsFile cfg.filePath = true →
       cfg.options.method = .date →
       needsRotation cfg oracle entryBytes now tz store =
         (.ok (decide (store.currentDateString ≠
            some (formatDate cfg.options.dateFormat now tz))), store)) := by
  refine ⟨?_, ?_, ?_⟩
  · intro h
    simp [needsRotation, jsExistsFile, h]
  · intro d maxB hd hm hp
    have hex : store.fs.existsFile cfg.filePath = true :=
      (FS.existsFile_iff_statOf _ _).mpr ⟨d, hd⟩
    simp [needsRotation, jsExistsFile, hex, hm, jsStatSync, hstat, hd, hp]
  · intro hex hm
    simp [needsRotation, jsExistsFile, hex, hm, getCurrentDate]

/-- Witness for C2: a 90-byte file plus a 20-byte entry exceeds a 100-byte
limit, so rotation is required. -/
theorem needsRotation_spec_witness :
    needsRotation thresholdCfg Oracle.benign 20 ⟨2025, 1, 1, 0, 0, 0, 0⟩ 0
      thresholdStore = (.ok true, thresholdStore) :=
  (needsRotation_spec thresholdCfg Oracle.benign thresholdStore 20
    ⟨2025, 1, 1, 0, 0, 0, 0⟩ 0 rfl).2.1 ⟨90, 10, 1⟩ 100 rfl rfl rfl

/-- C4 amended. An unparsable `maxSize` is not fatal at the point of first
use: for every SIZE transport whose `maxSize` fails to parse, the first
write that consults the size check (the active file exists and its stat
succeeds) returns normally, appending exactly the error-channel diagnostic
carrying the invalid-size-format error and the console fallback of the raw
message — the error is swallowed by `write`'s catch-all, never seen by the
caller. -/
theorem invalidMaxSize_write_falls_back (cfg : TransportConfig)
    (oracle : Oracle) (store : Store) (level : LogLevel) (msg : String)
    (now : DateTime) (nowMs : Nat) (tz : Int)
    (hm : cfg.options.method = .size)
    (e : JsError) (hp : parseSize cfg.options.maxSize = .error e)
    (hex : store.fs.existsFile cfg.filePath = true)
    (hstat : oracle.statFail cfg.filePath = false)
    (hlog : shouldLog cfg.levelFilter level = true) :
    write cfg oracle level msg now nowMs tz store =
      .ok { store with
            emissions := store.emissions ++
              [.consoleError "Failed to write to log file:" e,
               .consoleLog msg] } := by
  obtain ⟨d, hd⟩ := (FS.existsFile_iff_statOf _ _).mp hex
  simp [write, hlog, writeTryBlock, needsRotation, jsExistsFile, hex, hm,
        jsStatSync, hstat, hd, hp, throwE]

/-- Witness for C4 amended: the `maxSize: "bogus"` transport's first
size-checked write returns normally with the two fallback emissions. -/
theorem invalidMaxSize_write_falls_back_witness :
    write bogusSizeCfg Oracle.benign .info "hi" ⟨2025, 1, 1, 0, 0, 0, 0⟩
        1000 0 bogusSizeStore =
      .ok { bogusSizeStore with
            emissions := bogusSizeStore.emissions ++
              [.consoleError "Failed to write to log file:"
                 (.invalidSizeFormat "bogus"),
               .consoleLog "hi"] } :=
  invalidMaxSize_write_falls_back bogusSizeCfg Oracle.benign bogusSizeStore
    .info "hi" ⟨2025, 1, 1, 0, 0, 0, 0⟩ 1000 0 rfl
    (.invalidSizeFormat "bogus") rfl rfl rfl rfl

/-! ### Totality of the guarded rotation path

Every filesystem operation inside rotation is individually wrapped in a
try/catch that degrades to a `console.warn`, so the whole rotation path
returns normally on every store and under every failure oracle. These
lemmas trace that structure. -/

/-- A computation that returns normally on every store. -/
def FsMTotal {α : Type} (x : FsM α) : Prop :=
  ∀ s, ∃ a s', x s = (.ok a, s')

theorem totalPure {α : Type} (a : α) : FsMTotal (pure a : FsM α) :=
  fun s => ⟨a, s, rfl⟩

theorem totalBind {α β : Type} {x : FsM α} {f : α → FsM β}
    (hx : FsMTotal x) (hf : ∀ a, FsMTotal (f a)) : FsMTotal (x >>= f) := by
  intro s
  obtain ⟨a, s₁, hx1⟩ := hx s
  obtain ⟨b, s₂, h2⟩ := hf a s₁
  exact ⟨b, s₂, by simp [hx1, h2]⟩

theorem totalCatchAll {α : Type} (body : FsM α) {h : JsError → FsM α}
    (hh : ∀ e, FsMTotal (h e)) : FsMTotal (catchAll body h) := by
  intro s
  unfold catchAll
  rcases hb : body s with ⟨r | a, s'⟩
  · obtain ⟨b, s₂, h2⟩ := hh r s'
    exact ⟨b, s₂, by simp [hb, h2]⟩
  · exact ⟨a, s', by simp [hb]⟩

theorem totalEmitWarn (w : String) : FsMTotal (emitWarn w) :=
  fun s => ⟨(), { s with emissions := s.emissions ++ [.consoleWarn w] }, rfl⟩

theorem totalCatchWarn (body : FsM Unit) (w : String) :
    FsMTotal (catchAll body (fun _ => emitWarn w)) :=
  totalCatchAll body (fun _ => totalEmitWarn w)

theorem totalIte {α : Type} {c : Prop} [Decidable c] {x y : FsM α}
    (hx : FsMTotal x) (hy : FsMTotal y) : FsMTotal (if c then x else y) := by
  split <;> assumption

theorem totalGetCurrentDate : FsMTotal getCurrentDate :=
  fun s => ⟨s.currentDateString, s, rfl⟩

theorem totalSetCurrentDate (v : String) : FsMTotal (setCurrentDate v) :=
  fun s => ⟨(), { s with currentDateString := some v }, rfl⟩

theorem totalGetFS : FsMTotal getFS := fun s => ⟨s.fs, s, rfl⟩

theorem totalExistsFile (p : PathKey) : FsMTotal (jsExistsFile p) :=
  fun s => ⟨s.fs.existsFile p, s, rfl⟩

/-- `archiveFileSync` is one guarded block (log.ts:475-488). -/
theorem archiveFileSync_total (cfg : TransportConfig) (oracle : Oracle)
    (src : PathKey) (name : String) :
    FsMTotal (archiveFileSync cfg oracle src name) :=
  totalCatchAll _ (fun _ => totalEmitWarn _)

/-- Every shift or eviction of the numbered-sibling loop is guarded
(log.ts:219-232). -/
theorem sizeShiftLoop_total (cfg : TransportConfig) (oracle : Oracle)
    (l : List Nat) : FsMTotal (sizeShiftLoop cfg oracle l) := by
  induction l with
  | nil => exact totalPure ()
  | cons i rest ih =>
    unfold sizeShiftLoop
    refine totalBind (totalExistsFile _) (fun ex => ?_)
    dsimp only
    refine totalIte ?_ (totalBind (totalPure ()) (fun _ => ih))
    exact totalIte (totalBind (archiveFileSync_total _ _ _ _) (fun _ => ih))
      (totalBind (totalCatchWarn _ _) (fun _ => ih))

/-- Retention cleanup is skipped or fully guarded (log.ts:525-552). -/
theorem cleanupArchivedFiles_total (cfg : TransportConfig) (oracle : Oracle)
    (nowMs : Nat) : FsMTotal (cleanupArchivedFiles cfg oracle nowMs) := by
  unfold cleanupArchivedFiles
  exact totalIte (totalPure ()) (totalCatchAll _ (fun _ => totalEmitWarn _))

/-- The active-directory date-file cleanup is one guarded block
(log.ts:414-446). -/
theorem cleanupOldDateFiles_total (cfg : TransportConfig) (oracle : Oracle) :
    FsMTotal (cleanupOldDateFiles cfg oracle) :=
  totalCatchAll _ (fun _ => totalEmitWarn _)

/-- Size rotation returns normally on every store and oracle. -/
theorem rotateBySizeStrategySync_total (cfg : TransportConfig)
    (oracle : Oracle) (nowMs : Nat) :
    FsMTotal (rotateBySizeStrategySync cfg oracle nowMs) := by
  unfold rotateBySizeStrategySync
  exact totalBind (sizeShiftLoop_total _ _ _) (fun _ =>
    totalBind (totalCatchWarn _ _) (fun _ =>
      cleanupArchivedFiles_total _ _ _))

/-- Date rotation returns normally on every store and oracle. -/
theorem rotateByDateStrategySync_total (cfg : TransportConfig)
    (oracle : Oracle) (now : DateTime) (nowMs : Nat) (tz : Int) :
    FsMTotal (rotateByDateStrategySync cfg oracle now nowMs tz) := by
  unfold rotateByDateStrategySync
  refine totalBind totalGetCurrentDate (fun cur => ?_)
  refine totalBind totalGetFS (fun fs => ?_)
  refine totalBind (archiveFileSync_total _ _ _ _) (fun _ => ?_)
  refine totalBind (totalSetCurrentDate _) (fun _ => ?_)
  refine totalBind (cleanupArchivedFiles_total _ _ _) (fun _ => ?_)
  exact totalIte (cleanupOldDateFiles_total _ _) (totalPure ())

/-- `rotateFileSync` returns normally on every store and oracle: the
rotation path never propagates a filesystem error (log.ts:182-193, every
inner operation guarded). -/
theorem rotateFileSync_total (cfg : TransportConfig) (oracle : Oracle)
    (now : DateTime) (nowMs : Nat) (tz : Int) :
    FsMTotal (rotateFileSync cfg oracle now nowMs tz) := by
  unfold rotateFileSync
  refine totalBind (totalExistsFile _) (fun ex => ?_)
  refine totalIte (totalPure ()) ?_
  match cfg.options.method with
  | .size => exact rotateBySizeStrategySync_total _ _ _
  | .date => exact rotateByDateStrategySync_total _ _ _ _ _

/-- Stepping a bind through a known intermediate result. -/
theorem bind_ok_step {α β : Type} {x : FsM α} {f : α → FsM β} {s s₁ : Store}
    {a : α} (hx : x s = (.ok a, s₁)) : (x >>= f) s = f a s₁ := by
  simp [hx]

/-- Stepping a bind through a known intermediate exception. -/
theorem bind_error_step {α β : Type} {x : FsM α} {f : α → FsM β}
    {s s₁ : Store} {e : JsError} (hx : x s = (.error e, s₁)) :
    (x >>= f) s = (.error e, s₁) := by
  simp [hx]

/-- Under a stat-respecting oracle and a parsable `maxSize`, the rotation
decision returns normally and reads only. -/
theorem needsRotation_ok (cfg : TransportConfig) (oracle : Oracle)
    (entryBytes : Nat) (now : DateTime) (tz : Int)
    (hst : oracle.statFail cfg.filePath = false)
    (hsz : cfg.options.method = .size →
      ∃ n, parseSize cfg.options.maxSize = .ok n) (s : Store) :
    ∃ b, needsRotation cfg oracle entryBytes now tz s = (.ok b, s) := by
  rcases hex : s.fs.existsFile cfg.filePath with _ | _
  · exact ⟨false, by simp [needsRotation, jsExistsFile, hex]⟩
  · rcases hm : cfg.options.method with _ | _
    · obtain ⟨d, hd⟩ := (FS.existsFile_iff_statOf _ _).mp hex
      obtain ⟨n, hn⟩ := hsz hm
      refine ⟨decide (d.size + entryBytes > n), ?_⟩
      simp only [needsRotation, bind_ok_step (show jsExistsFile cfg.filePath s
          = (.ok (s.fs.existsFile cfg.filePath), s) from rfl), hex]
      simp [hm, jsStatSync, hst, hd, hn]
    · refine ⟨decide (s.currentDateString ≠
          some (formatDate cfg.options.dateFormat now tz)), ?_⟩
      simp only [needsRotation, bind_ok_step (show jsExistsFile cfg.filePath s
          = (.ok (s.fs.existsFile cfg.filePath), s) from rfl), hex]
      simp [hm, getCurrentDate]

/-- When both the append and the create path throw, the try block of
`write` ends in an error (after any rotation has completed). -/
theorem writeTryBlock_fails (cfg : TransportConfig) (oracle : Oracle)
    (entryBytes : Nat) (now : DateTime) (nowMs : Nat) (tz : Int)
    (hap : oracle.appendFail cfg.filePath = true)
    (hwr : oracle.writeFail cfg.filePath = true)
    (hst : oracle.statFail cfg.filePath = false)
    (hsz : cfg.options.method = .size →
      ∃ n, parseSize cfg.options.maxSize = .ok n) (s : Store) :
    ∃ e s', writeTryBlock cfg oracle entryBytes now nowMs tz s =
      (.error e, s') := by
  obtain ⟨b, hb⟩ := needsRotation_ok cfg oracle entryBytes now tz hst hsz s
  have happend : ∀ s₂ : Store,
      ∃ e s₃, ((jsExistsFile cfg.filePath : FsM Bool) >>= fun ex =>
        if ex then jsAppendFileSync oracle cfg.filePath entryBytes nowMs
        else jsWriteFileSync oracle cfg.filePath entryBytes nowMs) s₂ =
        (.error e, s₃) := by
    intro s₂
    rw [bind_ok_step (show jsExistsFile cfg.filePath s₂
        = (.ok (s₂.fs.existsFile cfg.filePath), s₂) from rfl)]
    rcases hex2 : s₂.fs.existsFile cfg.filePath with _ | _
    · exact ⟨.fsError "write" cfg.filePath.1 cfg.filePath.2, s₂,
        by simp [hex2, jsWriteFileSync, hwr]⟩
    · exact ⟨.fsError "append" cfg.filePath.1 cfg.filePath.2, s₂,
        by simp [hex2, jsAppendFileSync, hap]⟩
  unfold writeTryBlock
  rw [bind_ok_step hb]
  rcases b with _ | _
  · simpa using happend s
  · obtain ⟨u, s₂, hrot⟩ := rotateFileSync_total cfg oracle now nowMs tz s
    rw [if_pos rfl, bind_ok_step hrot]
    exact happend s₂

/-- C1. For every level admitted by the filter, every message and every
store, `write` returns normally — under every failure oracle, i.e. for
every pattern of filesystem failures — and whenever the append-or-create
step on the active file fails (here: both the append and the create path
throw, while the preceding stat works and `maxSize` parses), the returned
store's console output contains an error-channel diagnostic and the raw
message on the console fallback channel, so the message is not silently
dropped. -/
theorem write_returns_normally_and_falls_back (cfg : TransportConfig)
    (oracle : Oracle) (store : Store) (level : LogLevel) (msg : String)
    (now : DateTime) (nowMs : Nat) (tz : Int)
    (hlog : shouldLog cfg.levelFilter level = true)
    (hap : oracle.appendFail cfg.filePath = true)
    (hwr : oracle.writeFail cfg.filePath = true)
    (hst : oracle.statFail cfg.filePath = false)
    (hsz : cfg.options.method = .size →
      ∃ n, parseSize cfg.options.maxSize = .ok n) :
    (∀ (o' : Oracle) (s : Store),
       ∃ s', write cfg o' level msg now nowMs tz s = .ok s') ∧
    (∃ s', write cfg oracle level msg now nowMs tz store = .ok s' ∧
       (∃ e, Emission.consoleError "Failed to write to log file:" e ∈
          s'.emissions) ∧
       Emission.consoleLog msg ∈ s'.emissions) := by
  constructor
  · intro o' s
    rcases htb : writeTryBlock cfg o' (entryBytesOf now msg) now nowMs tz s
      with ⟨r | a, s₁⟩
    · exact ⟨{ s₁ with emissions := s₁.emissions ++
          [.consoleError "Failed to write to log file:" r, .consoleLog msg] },
        by simp [write, hlog, htb]⟩
    · exact ⟨s₁, by simp [write, hlog, htb]⟩
  · obtain ⟨e, s₁, htb⟩ := writeTryBlock_fails cfg oracle
      (entryBytesOf now msg) now nowMs tz hap hwr hst hsz store
    refine ⟨{ s₁ with emissions := s₁.emissions ++
        [.consoleError "Failed to write to log file:" e, .consoleLog msg] },
      by simp [write, hlog, htb], ⟨e, ?_⟩, ?_⟩ <;> simp

/-- Witness for C1: a full-disk oracle (every append and create throws) on
a SIZE transport; the write still returns normally and the message reaches
the console fallback. -/
theorem write_returns_normally_and_falls_back_witness :
    (∀ (o' : Oracle) (s : Store),
       ∃ s', write thresholdCfg o' .info "hello" ⟨2025, 1, 1, 0, 0, 0, 0⟩
         1000 0 s = .ok s') ∧
    (∃ s', write thresholdCfg fullDiskOracle .info "hello"
         ⟨2025, 1, 1, 0, 0, 0, 0⟩ 1000 0 thresholdStore = .ok s' ∧
       (∃ e, Emission.consoleError "Failed to write to log file:" e ∈
          s'.emissions) ∧
       Emission.consoleLog "hello" ∈ s'.emissions) :=
  write_returns_normally_and_falls_back thresholdCfg fullDiskOracle
    thresholdStore .info "hello" ⟨2025, 1, 1, 0, 0, 0, 0⟩ 1000 0 rfl rfl rfl
    rfl (fun _ => ⟨100, rfl⟩)

/-! ### Filesystem update lemmas -/

theorem lookupFile_append (l₁ l₂ : List (PathKey × FileData)) (q : PathKey) :
    lookupFile (l₁ ++ l₂) q =
      match lookupFile l₁ q with
      | some d => some d
      | none => lookupFile l₂ q := by
  induction l₁ with
  | nil => simp [lookupFile]
  | cons e rest ih =>
    by_cases h : e.1 = q <;> simp [lookupFile, h, ih]

theorem FS.statOf_removeFile (fs : FS) (p q : PathKey) :
    (fs.removeFile p).statOf q = if q = p then none else fs.statOf q := by
  unfold FS.removeFile FS.statOf
  simp only
  induction fs.files with
  | nil => by_cases h : q = p <;> simp [lookupFile, h]
  | cons e rest ih =>
    by_cases hep : e.1 = p <;> by_cases heq : e.1 = q <;>
      by_cases hqp : q = p <;>
      simp_all [List.filter_cons, lookupFile]

theorem FS.statOf_setFile (fs : FS) (p q : PathKey) (d : FileData) :
    (fs.setFile p d).statOf q = if q = p then some d else fs.statOf q := by
  have hrm : lookupFile (fs.removeFile p).files q =
      if q = p then none else fs.statOf q := FS.statOf_removeFile fs p q
  unfold FS.setFile FS.statOf
  simp only
  rw [lookupFile_append, hrm]
  by_cases hqp : q = p
  · simp [hqp, lookupFile]
  · simp only [if_neg hqp]
    rcases h : fs.statOf q with _ | d' <;>
      simp [h, lookupFile, Ne.symm hqp] <;>
      exact h.symm

theorem isFreeName_statOf {fs : FS} {aDir n : String}
    (h : isFreeName fs aDir n = true) :
    fs.statOf (aDir, n) = none ∧ fs.statOf (aDir, n ++ ".gz") = none := by
  unfold isFreeName FS.existsFile at h
  rcases h1 : fs.statOf (aDir, n) with _ | d1 <;>
    rcases h2 : fs.statOf (aDir, n ++ ".gz") with _ | d2 <;>
      simp_all

/-- The `while` loop of date rotation (log.ts:296-304) returns the first
free candidate: whenever some candidate within the fuel bound is free, the
result is a free candidate and every earlier candidate was taken. -/
theorem findFreeGo_spec (cfg : TransportConfig) (fs : FS) (dateStr : String) :
    ∀ (fuel idx : Nat),
      (∃ m, m < fuel ∧
        isFreeName fs cfg.options.archiveDir
          (candidateName cfg dateStr (idx + m)) = true) →
      ∃ m₀, findFreeGo cfg fs dateStr fuel (idx + 1)
          (candidateName cfg dateStr idx) =
          candidateName cfg dateStr (idx + m₀) ∧
        isFreeName fs cfg.options.archiveDir
          (candidateName cfg dateStr (idx + m₀)) = true ∧
        ∀ j, j < m₀ → isFreeName fs cfg.options.archiveDir
          (candidateName cfg dateStr (idx + j)) = false := by
  intro fuel
  induction fuel with
  | zero =>
    rintro idx ⟨m, hm, _⟩
    exact absurd hm (by omega)
  | succ fuel ih =>
    rintro idx ⟨m, hmlt, hmfree⟩
    rcases hcur : isFreeName fs cfg.options.archiveDir
        (candidateName cfg dateStr idx) with _ | _
    · have hm0 : m ≠ 0 := by
        rintro rfl
        rw [Nat.add_zero, hcur] at hmfree
        cases hmfree
      obtain ⟨m', rfl⟩ : ∃ m', m = m' + 1 := ⟨m - 1, by omega⟩
      have hshift : idx + 1 + m' = idx + (m' + 1) := by omega
      obtain ⟨m₀, heq, hfree₀, hmin⟩ := ih (idx + 1)
        ⟨m', by omega, by rw [hshift]; exact hmfree⟩
      refine ⟨m₀ + 1, ?_, ?_, ?_⟩
      · have hshift2 : idx + 1 + m₀ = idx + (m₀ + 1) := by omega
        rw [hshift2] at heq
        simpa [findFreeGo, hcur] using heq
      · have hshift2 : idx + 1 + m₀ = idx + (m₀ + 1) := by omega
        rw [hshift2] at hfree₀
        exact hfree₀
      · intro j hj
        match j with
        | 0 => simpa using hcur
        | j' + 1 =>
          have := hmin j' (by omega)
          rw [show idx + 1 + j' = idx + (j' + 1) from by omega] at this
          exact this
    · refine ⟨0, by simp [findFreeGo, hcur], by simpa using hcur, ?_⟩
      intro j hj
      omega

/-! ### What the cleanup passes can and cannot delete

Under the no-failure oracle: the retention scan deletes only files whose
modification time is older than the cutoff, and the date-file pass deletes
only files of the active directory. Neither ever creates a file. -/

theorem cleanupScan_preserves_fresh (cfg : TransportConfig) (cutoff : Int)
    (k : PathKey) (d : FileData) (hk : cutoff ≤ (d.mtime : Int)) :
    ∀ (names : List String) (s : Store),
      s.fs.statOf k = some d →
      ((cleanupScan cfg Oracle.benign cutoff names s).2).fs.statOf k =
        some d := by
  intro names
  induction names with
  | nil => intro s hs; simpa [cleanupScan] using hs
  | cons name rest ih =>
    intro s hs
    unfold cleanupScan
    rcases hstat : s.fs.statOf (cfg.options.archiveDir, name) with _ | dn
    · rw [bind_error_step (show jsStatSync Oracle.benign
          (cfg.options.archiveDir, name) s =
          (.error (.fsError "stat" cfg.options.archiveDir name), s) by
            simp [jsStatSync, Oracle.benign, hstat])]
      exact hs
    · rw [bind_ok_step (show jsStatSync Oracle.benign
          (cfg.options.archiveDir, name) s = (.ok dn, s) by
            simp [jsStatSync, Oracle.benign, hstat])]
      dsimp only
      by_cases hlt : (dn.mtime : Int) < cutoff
      · rw [if_pos hlt]
        have hkne : k ≠ (cfg.options.archiveDir, name) := by
          rintro rfl
          rw [hstat] at hs
          cases hs
          omega
        have hrm : (s.fs.removeFile (cfg.options.archiveDir, name)).statOf k =
            some d := by
          rw [FS.statOf_removeFile, if_neg hkne]
          exact hs
        rw [bind_ok_step (show catchAll (jsUnlinkSync Oracle.benign
            (cfg.options.archiveDir, name))
            (fun _ => emitWarn "Failed to delete expired archive file") s =
            (.ok (),
             { s with
               fs := s.fs.removeFile (cfg.options.archiveDir, name) }) by
          simp [catchAll, jsUnlinkSync, Oracle.benign, FS.existsFile, hstat])]
        exact ih _ hrm
      · rw [if_neg hlt]
        rw [bind_ok_step (show (pure () : FsM Unit) s = (.ok (), s) from rfl)]
        exact ih _ hs

theorem cleanupScan_keeps_none (cfg : TransportConfig) (cutoff : Int)
    (k : PathKey) :
    ∀ (names : List String) (s : Store),
      s.fs.statOf k = none →
      ((cleanupScan cfg Oracle.benign cutoff names s).2).fs.statOf k =
        none := by
  intro names
  induction names with
  | nil => intro s hs; simpa [cleanupScan] using hs
  | cons name rest ih =>
    intro s hs
    unfold cleanupScan
    rcases hstat : s.fs.statOf (cfg.options.archiveDir, name) with _ | dn
    · rw [bind_error_step (show jsStatSync Oracle.benign
          (cfg.options.archiveDir, name) s =
          (.error (.fsError "stat" cfg.options.archiveDir name), s) by
            simp [jsStatSync, Oracle.benign, hstat])]
      exact hs
    · rw [bind_ok_step (show jsStatSync Oracle.benign
          (cfg.options.archiveDir, name) s = (.ok dn, s) by
            simp [jsStatSync, Oracle.benign, hstat])]
      dsimp only
      by_cases hlt : (dn.mtime : Int) < cutoff
      · rw [if_pos hlt]
        have hrm : (s.fs.removeFile (cfg.options.archiveDir, name)).statOf k =
            none := by
          rw [FS.statOf_removeFile]
          split
          · rfl
          · exact hs
        rw [bind_ok_step (show catchAll (jsUnlinkSync Oracle.benign
            (cfg.options.archiveDir, name))
            (fun _ => emitWarn "Failed to delete expired archive file") s =
            (.ok (),
             { s with
               fs := s.fs.removeFile (cfg.options.archiveDir, name) }) by
          simp [catchAll, jsUnlinkSync, Oracle.benign, FS.existsFile, hstat])]
        exact ih _ hrm
      · rw [if_neg hlt]
        rw [bind_ok_step (show (pure () : FsM Unit) s = (.ok (), s) from rfl)]
        exact ih _ hs

theorem catchWarn_snd_fs (body : FsM Unit) (w : String) (s : Store) :
    (((catchAll body (fun _ => emitWarn w)) s).2).fs = ((body s).2).fs := by
  unfold catchAll
  rcases hb : body s with ⟨r | a, s₁⟩ <;> simp [emitWarn]

theorem jsStatSync_snd (oracle : Oracle) (p : PathKey) (s : Store) :
    (jsStatSync oracle p s).2 = s := by
  unfold jsStatSync
  split
  · rfl
  · split <;> rfl

theorem jsReaddirSync_snd (oracle : Oracle) (dir : String) (s : Store) :
    (jsReaddirSync oracle dir s).2 = s := by
  unfold jsReaddirSync
  split
  · rfl
  · split <;> rfl

theorem statAll_snd (cfg : TransportConfig) (oracle : Oracle) :
    ∀ (names : List String) (s : Store),
      (statAll cfg oracle names s).2 = s := by
  intro names
  induction names with
  | nil => intro s; rfl
  | cons name rest ih =>
    intro s
    unfold statAll
    rcases h1 : jsStatSync oracle (cfg.dir, name) s with ⟨r, s₁⟩
    have hs₁ : s₁ = s := by
      have := jsStatSync_snd oracle (cfg.dir, name) s
      rw [h1] at this
      exact this
    rw [hs₁] at h1
    rcases r with e | st
    · rw [bind_error_step h1]
    · rw [bind_ok_step h1]
      rcases h2 : statAll cfg oracle rest s with ⟨r₂, s₂⟩
      have hs₂ : s₂ = s := by
        have := ih s
        rw [h2] at this
        exact this
      rw [hs₂] at h2
      rcases r₂ with e₂ | tail
      · rw [bind_error_step h2]
      · rw [bind_ok_step h2]
        rfl

theorem deleteEach_preserves_other (cfg : TransportConfig) (k : PathKey)
    (hk : k.1 ≠ cfg.dir) :
    ∀ (files : List (String × FileData)) (s : Store),
      ((deleteEach cfg Oracle.benign files s).2).fs.statOf k =
        s.fs.statOf k := by
  intro files
  induction files with
  | nil => intro s; rfl
  | cons f rest ih =>
    intro s
    unfold deleteEach
    have step : ∃ s', catchAll (jsUnlinkSync Oracle.benign (cfg.dir, f.1))
        (fun _ => emitWarn "Failed to delete old log file") s = (.ok (), s') ∧
        s'.fs.statOf k = s.fs.statOf k := by
      rcases hex : s.fs.statOf (cfg.dir, f.1) with _ | dd
      · refine ⟨{ s with emissions := s.emissions ++
            [.consoleWarn "Failed to delete old log file"] }, ?_, rfl⟩
        simp [catchAll, jsUnlinkSync, Oracle.benign, FS.existsFile, hex,
              emitWarn]
      · refine ⟨{ s with fs := s.fs.removeFile (cfg.dir, f.1) }, ?_, ?_⟩
        · simp [catchAll, jsUnlinkSync, Oracle.benign, FS.existsFile, hex]
        · rw [FS.statOf_removeFile, if_neg]
          rintro rfl
          exact hk rfl
    obtain ⟨s', hs', hkeep⟩ := step
    rw [bind_ok_step hs', ih s', hkeep]

theorem deleteEach_keeps_none (cfg : TransportConfig) (k : PathKey) :
    ∀ (files : List (String × FileData)) (s : Store),
      s.fs.statOf k = none →
      ((deleteEach cfg Oracle.benign files s).2).fs.statOf k = none := by
  intro files
  induction files with
  | nil => intro s hs; exact hs
  | cons f rest ih =>
    intro s hs
    unfold deleteEach
    have step : ∃ s', catchAll (jsUnlinkSync Oracle.benign (cfg.dir, f.1))
        (fun _ => emitWarn "Failed to delete old log file") s = (.ok (), s') ∧
        s'.fs.statOf k = none := by
      rcases hex : s.fs.statOf (cfg.dir, f.1) with _ | dd
      · refine ⟨{ s with emissions := s.emissions ++
            [.consoleWarn "Failed to delete old log file"] }, ?_, hs⟩
        simp [catchAll, jsUnlinkSync, Oracle.benign, FS.existsFile, hex,
              emitWarn]
      · refine ⟨{ s with fs := s.fs.removeFile (cfg.dir, f.1) }, ?_, ?_⟩
        · simp [catchAll, jsUnlinkSync, Oracle.benign, FS.existsFile, hex]
        · rw [FS.statOf_removeFile]
          split
          · rfl
          · exact hs
    obtain ⟨s', hs', hkeep⟩ := step
    rw [bind_ok_step hs']
    exact ih s' hkeep

theorem cleanupOldDateFiles_preserves_other (cfg : TransportConfig)
    (k : PathKey) (hk : k.1 ≠ cfg.dir) (s : Store) :
    ((cleanupOldDateFiles cfg Oracle.benign s).2).fs.statOf k =
      s.fs.statOf k := by
  unfold cleanupOldDateFiles
  rw [catchWarn_snd_fs]
  rcases hrd : jsReaddirSync Oracle.benign cfg.dir s with ⟨r, s₁⟩
  have hs₁ : s₁ = s := by
    have := jsReaddirSync_snd Oracle.benign cfg.dir s
    rw [hrd] at this
    exact this
  rw [hs₁] at hrd
  rcases r with e | files
  · rw [bind_error_step hrd]
  · rw [bind_ok_step hrd]
    rcases h2 : statAll cfg Oracle.benign
        (files.filter (fun f => dateFilePattern cfg f)) s with ⟨r₂, s₂⟩
    have hs₂ : s₂ = s := by
      have := statAll_snd cfg Oracle.benign
        (files.filter (fun f => dateFilePattern cfg f)) s
      rw [h2] at this
      exact this
    rw [hs₂] at h2
    rcases r₂ with e₂ | stats
    · rw [bind_error_step h2]
    · rw [bind_ok_step h2]
      by_cases hlen : (sortByMtimeDesc stats).length > cfg.options.maxFiles
      · rw [if_pos hlen]
        exact deleteEach_preserves_other cfg k hk _ s
      · rw [if_neg hlen]
        rfl

theorem cleanupOldDateFiles_keeps_none (cfg : TransportConfig)
    (k : PathKey) (s : Store) (hs : s.fs.statOf k = none) :
    ((cleanupOldDateFiles cfg Oracle.benign s).2).fs.statOf k = none := by
  unfold cleanupOldDateFiles
  rw [catchWarn_snd_fs]
  rcases hrd : jsReaddirSync Oracle.benign cfg.dir s with ⟨r, s₁⟩
  have hs₁ : s₁ = s := by
    have := jsReaddirSync_snd Oracle.benign cfg.dir s
    rw [hrd] at this
    exact this
  rw [hs₁] at hrd
  rcases r with e | files
  · rw [bind_error_step hrd]
    exact hs
  · rw [bind_ok_step hrd]
    rcases h2 : statAll cfg Oracle.benign
        (files.filter (fun f => dateFilePattern cfg f)) s with ⟨r₂, s₂⟩
    have hs₂ : s₂ = s := by
      have := statAll_snd cfg Oracle.benign
        (files.filter (fun f => dateFilePattern cfg f)) s
      rw [h2] at this
      exact this
    rw [hs₂] at h2
    rcases r₂ with e₂ | stats
    · rw [bind_error_step h2]
      exact hs
    · rw [bind_ok_step h2]
      by_cases hlen : (sortByMtimeDesc stats).length > cfg.options.maxFiles
      · rw [if_pos hlen]
        exact deleteEach_keeps_none cfg k _ s hs
      · rw [if_neg hlen]
        exact hs

theorem cleanupArchivedFiles_preserves_fresh (cfg : TransportConfig)
    (nowMs : Nat) (k : PathKey) (d : FileData)
    (hmt : (nowMs : Int) -
      ((cfg.options.retentionDays * 24 * 60 * 60 * 1000 : Nat) : Int) ≤
      (d.mtime : Int)) (s : Store) (hs : s.fs.statOf k = some d) :
    ((cleanupArchivedFiles cfg Oracle.benign nowMs s).2).fs.statOf k =
      some d := by
  unfold cleanupArchivedFiles
  by_cases h0 : cfg.options.retentionDays = 0
  · rw [if_pos h0]
    exact hs
  · rw [if_neg h0]
    rw [catchWarn_snd_fs]
    rw [bind_ok_step (show jsExistsDir cfg.options.archiveDir s =
        (.ok (s.fs.existsDir cfg.options.archiveDir), s) from rfl)]
    rcases hed : s.fs.existsDir cfg.options.archiveDir with _ | _
    · simp only [Bool.not_false]
      rw [if_pos trivial]
      exact hs
    · simp only [Bool.not_true]
      rw [if_neg Bool.false_ne_true]
      rw [bind_ok_step (show jsReaddirSync Oracle.benign
          cfg.options.archiveDir s =
          (.ok (s.fs.readdir cfg.options.archiveDir), s) by
            simp [jsReaddirSync, Oracle.benign, hed])]
      exact cleanupScan_preserves_fresh cfg _ k d hmt _ s hs

theorem cleanupArchivedFiles_keeps_none (cfg : TransportConfig)
    (nowMs : Nat) (k : PathKey) (s : Store) (hs : s.fs.statOf k = none) :
    ((cleanupArchivedFiles cfg Oracle.benign nowMs s).2).fs.statOf k =
      none := by
  unfold cleanupArchivedFiles
  by_cases h0 : cfg.options.retentionDays = 0
  · rw [if_pos h0]
    exact hs
  · rw [if_neg h0]
    rw [catchWarn_snd_fs]
    rw [bind_ok_step (show jsExistsDir cfg.options.archiveDir s =
        (.ok (s.fs.existsDir cfg.options.archiveDir), s) from rfl)]
    rcases hed : s.fs.existsDir cfg.options.archiveDir with _ | _
    · simp only [Bool.not_false]
      rw [if_pos trivial]
      exact hs
    · simp only [Bool.not_true]
      rw [if_neg Bool.false_ne_true]
      rw [bind_ok_step (show jsReaddirSync Oracle.benign
          cfg.options.archiveDir s =
          (.ok (s.fs.readdir cfg.options.archiveDir), s) by
            simp [jsReaddirSync, Oracle.benign, hed])]
      exact cleanupScan_keeps_none cfg _ k _ s hs

/-- Evaluating `archiveFileSync` under the no-failure oracle when the
source exists: the source is renamed into the archive directory. -/
theorem archiveFileSync_moves (cfg : TransportConfig) (src : PathKey)
    (name : String) (d : FileData) (s : Store)
    (hsrc : s.fs.statOf src = some d) :
    archiveFileSync cfg Oracle.benign src name s =
      (.ok (),
       { s with
         fs := (s.fs.removeFile src).setFile (cfg.options.archiveDir, name) d }) := by
  have hexx : s.fs.existsFile src = true := by
    simp [FS.existsFile, hsrc]
  have hbody : ((jsExistsFile src : FsM Bool) >>= fun ex =>
      if !ex then pure ()
      else jsRenameSync Oracle.benign src (cfg.options.archiveDir, name)) s =
      (.ok (),
       { s with
         fs := (s.fs.removeFile src).setFile (cfg.options.archiveDir, name) d }) := by
    rw [bind_ok_step (show jsExistsFile src s =
        (.ok (s.fs.existsFile src), s) from rfl)]
    rw [hexx]
    simp only [Bool.not_true]
    rw [if_neg Bool.false_ne_true]
    simp [jsRenameSync, Oracle.benign, hsrc]
  unfold archiveFileSync catchAll
  rw [hbody]

/-- C6. Under DATE rotation (no-failure oracle, active file present, fresh
enough to survive retention, archive directory distinct from the active
directory), the archiving step never overwrites an existing archive entry:
the resolved archive name is the first candidate — `name.{bucket}{ext}`,
then `.1`, `.2`, … — that exists in neither plain nor `.gz` form, every
earlier candidate being taken, and the active file's content ends up under
that free name with the active path left empty. The freeness premise is
the fuel bound of the embedded `while` loop; it always holds on a finite
filesystem, each file blocking at most two candidate names. -/
theorem rotateByDate_archives_to_first_free_name
    (cfg : TransportConfig) (store : Store) (now : DateTime) (nowMs : Nat)
    (tz : Int)
    (hdir : cfg.options.archiveDir ≠ cfg.dir)
    (d : FileData) (hex : store.fs.statOf cfg.filePath = some d)
    (hmt : (nowMs : Int) -
      ((cfg.options.retentionDays * 24 * 60 * 60 * 1000 : Nat) : Int) ≤
      (d.mtime : Int))
    (hfree : ∃ m, m < 2 * store.fs.files.length + 2 ∧
      isFreeName store.fs cfg.options.archiveDir
        (candidateName cfg (store.currentDateString.getD "undefined") m) =
        true) :
    ∃ m s',
      rotateByDateStrategySync cfg Oracle.benign now nowMs tz store =
        (.ok (), s') ∧
      findFreeArchiveName cfg store.fs
          (store.currentDateString.getD "undefined") =
        candidateName cfg (store.currentDateString.getD "undefined") m ∧
      isFreeName store.fs cfg.options.archiveDir
        (candidateName cfg (store.currentDateString.getD "undefined") m) =
        true ∧
      (∀ j, j < m → isFreeName store.fs cfg.options.archiveDir
        (candidateName cfg (store.currentDateString.getD "undefined") j) =
        false) ∧
      s'.fs.statOf (cfg.options.archiveDir,
        candidateName cfg (store.currentDateString.getD "undefined") m) =
        some d ∧
      s'.fs.statOf cfg.filePath = none := by
  obtain ⟨m, hmeq, hmfree, hmmin⟩ := by
    have h := findFreeGo_spec cfg store.fs
      (store.currentDateString.getD "undefined")
      (2 * store.fs.files.length + 2) 0 (by simpa using hfree)
    simpa [findFreeArchiveName] using h
  set dateStr := store.currentDateString.getD "undefined" with hdateStr
  set nname := candidateName cfg dateStr m with hnname
  set target : PathKey := (cfg.options.archiveDir, nname) with htarget
  have htargetfree : store.fs.statOf target = none :=
    (isFreeName_statOf hmfree).1
  have hsrcne : cfg.filePath ≠ target := by
    intro hcontr
    rw [hcontr, htargetfree] at hex
    cases hex
  set s₁ : Store :=
    { store with fs := (store.fs.removeFile cfg.filePath).setFile target d }
    with hs₁
  set s₂ : Store :=
    { s₁ with
      currentDateString := some (formatDate cfg.options.dateFormat now tz) }
    with hs₂
  have hs₂target : s₂.fs.statOf target = some d := by
    rw [hs₂, hs₁]
    simp [FS.statOf_setFile]
  have hs₂src : s₂.fs.statOf cfg.filePath = none := by
    rw [hs₂, hs₁]
    simp only
    rw [FS.statOf_setFile, if_neg hsrcne, FS.statOf_removeFile, if_pos rfl]
  obtain ⟨u₃, s₃, h₃⟩ := cleanupArchivedFiles_total cfg Oracle.benign nowMs s₂
  cases u₃
  have hs₃target : s₃.fs.statOf target = some d := by
    have := cleanupArchivedFiles_preserves_fresh cfg nowMs target d hmt s₂
      hs₂target
    rw [h₃] at this
    exact this
  have hs₃src : s₃.fs.statOf cfg.filePath = none := by
    have := cleanupArchivedFiles_keeps_none cfg nowMs cfg.filePath s₂ hs₂src
    rw [h₃] at this
    exact this
  obtain ⟨sF, hstep, hFtarget, hFsrc⟩ :
      ∃ sF, (if cfg.options.maxFiles ≠ 0 then
          cleanupOldDateFiles cfg Oracle.benign
        else pure ()) s₃ = (.ok (), sF) ∧
        sF.fs.statOf target = some d ∧
        sF.fs.statOf cfg.filePath = none := by
    by_cases hmf : cfg.options.maxFiles ≠ 0
    · obtain ⟨u₄, s₄, h₄⟩ := cleanupOldDateFiles_total cfg Oracle.benign s₃
      cases u₄
      refine ⟨s₄, by rw [if_pos hmf]; exact h₄, ?_, ?_⟩
      · have := cleanupOldDateFiles_preserves_other cfg target
          (by simpa [htarget] using hdir) s₃
        rw [h₄] at this
        rw [this]
        exact hs₃target
      · have := cleanupOldDateFiles_keeps_none cfg cfg.filePath s₃ hs₃src
        rw [h₄] at this
        exact this
    · exact ⟨s₃, by rw [if_neg hmf]; rfl, hs₃target, hs₃src⟩
  refine ⟨m, sF, ?_, hmeq, hmfree, hmmin, hFtarget, hFsrc⟩
  unfold rotateByDateStrategySync
  rw [bind_ok_step (show getCurrentDate store =
      (.ok store.currentDateString, store) from rfl)]
  rw [bind_ok_step (show getFS store = (.ok store.fs, store) from rfl)]
  rw [show findFreeArchiveName cfg store.fs
      (store.currentDateString.getD "undefined") = nname from hmeq]
  rw [bind_ok_step (archiveFileSync_moves cfg cfg.filePath nname d store hex)]
  rw [bind_ok_step (show setCurrentDate
      (formatDate cfg.options.dateFormat now tz) s₁ = (.ok (), s₂) from rfl)]
  rw [bind_ok_step h₃]
  exact hstep

/-- Witness for C6: with `app.2025-01-07.log` taken in plain form and
`app.2025-01-07.1.log` taken in `.gz` form, rotation archives the active
file as `app.2025-01-07.2.log`. -/
theorem rotateByDate_archives_witness :
    ∃ m s',
      rotateByDateStrategySync dateDemoCfg Oracle.benign
          ⟨2025, 1, 8, 0, 0, 0, 0⟩ 1000 0 dateCollisionStore =
        (.ok (), s') ∧
      findFreeArchiveName dateDemoCfg dateCollisionStore.fs
          (dateCollisionStore.currentDateString.getD "undefined") =
        candidateName dateDemoCfg
          (dateCollisionStore.currentDateString.getD "undefined") m ∧
      isFreeName dateCollisionStore.fs dateDemoCfg.options.archiveDir
        (candidateName dateDemoCfg
          (dateCollisionStore.currentDateString.getD "undefined") m) = true ∧
      (∀ j, j < m → isFreeName dateCollisionStore.fs
        dateDemoCfg.options.archiveDir
        (candidateName dateDemoCfg
          (dateCollisionStore.currentDateString.getD "undefined") j) =
        false) ∧
      s'.fs.statOf (dateDemoCfg.options.archiveDir,
        candidateName dateDemoCfg
          (dateCollisionStore.currentDateString.getD "undefined") m) =
        some ⟨50, 100, 1⟩ ∧
      s'.fs.statOf dateDemoCfg.filePath = none :=
  rotateByDate_archives_to_first_free_name dateDemoCfg dateCollisionStore
    ⟨2025, 1, 8, 0, 0, 0, 0⟩ 1000 0 (by decide) ⟨50, 100, 1⟩ rfl (by decide)
    ⟨2, by decide, by decide⟩

/-! ### The size grammar of `parseSize` -/

theorem takeWhile_pred {p : Char → Bool} :
    ∀ {l : List Char} {c}, c ∈ l.takeWhile p → p c = true := by
  intro l
  induction l with
  | nil => intro c h; cases h
  | cons a rest ih =>
    intro c h
    rcases ha : p a with _ | _
    · rw [List.takeWhile_cons, ha] at h
      cases h
    · rw [List.takeWhile_cons, ha] at h
      rcases List.mem_cons.mp h with rfl | h2
      · exact ha
      · exact ih h2

theorem takeWhile_all_append {p : Char → Bool} :
    ∀ {xs : List Char}, (∀ c ∈ xs, p c = true) → ∀ (ys : List Char),
      (xs ++ ys).takeWhile p = xs ++ ys.takeWhile p := by
  intro xs
  induction xs with
  | nil => intro _ ys; simp
  | cons a rest ih =>
    intro h ys
    have ha : p a = true := h a (by simp)
    simp only [List.cons_append, List.takeWhile_cons, ha]
    rw [ih (fun c hc => h c (by simp [hc])) ys]
    exact if_pos trivial

theorem dropWhile_all_append {p : Char → Bool} :
    ∀ {xs : List Char}, (∀ c ∈ xs, p c = true) → ∀ (ys : List Char),
      (xs ++ ys).dropWhile p = ys.dropWhile p := by
  intro xs
  induction xs with
  | nil => intro _ ys; simp
  | cons a rest ih =>
    intro h ys
    have ha : p a = true := h a (by simp)
    simp only [List.cons_append, List.dropWhile_cons, ha]
    exact ih (fun c hc => h c (by simp [hc])) ys

theorem takeWhile_head_neg {p : Char → Bool} {c : Char} (l : List Char)
    (h : p c = false) : (c :: l).takeWhile p = [] := by
  simp [List.takeWhile_cons, h]

theorem dropWhile_head_neg {p : Char → Bool} {c : Char} (l : List Char)
    (h : p c = false) : (c :: l).dropWhile p = c :: l := by
  simp [List.dropWhile_cons, h]

/-- Every character of a unit suffix is a unit letter: neither a digit,
nor whitespace, nor a dot. -/
theorem unitForms_chars :
    ∀ u ∈ unitForms,
      u.all (fun c => (!c.isDigit) && (!(isJsSpace c)) &&
        (!(decide (c = '.')))) = true := by
  decide

/-- Soundness of the multiplier table: a suffix it accepts is one of the
27 unit forms. -/
theorem unitMultiplier_mem {u : List Char} {m : Nat}
    (h : unitMultiplier u = some m) : u ∈ unitForms := by
  rcases u with _ | ⟨c1, u1⟩
  · simp [unitForms]
  rcases u1 with _ | ⟨c2, u2⟩
  · dsimp only [unitMultiplier] at h
    split_ifs at h with h1 h2 h3 h4 h5
    · rcases (by simpa using h1 : c1 = 'B' ∨ c1 = 'b') with rfl | rfl <;>
        simp [unitForms]
    · rcases (by simpa using h2 : c1 = 'K' ∨ c1 = 'k') with rfl | rfl <;>
        simp [unitForms]
    · rcases (by simpa using h3 : c1 = 'M' ∨ c1 = 'm') with rfl | rfl <;>
        simp [unitForms]
    · rcases (by simpa using h4 : c1 = 'G' ∨ c1 = 'g') with rfl | rfl <;>
        simp [unitForms]
    · rcases (by simpa using h5 : c1 = 'T' ∨ c1 = 't') with rfl | rfl <;>
        simp [unitForms]
  rcases u2 with _ | ⟨c3, u3⟩
  · dsimp only [unitMultiplier] at h
    split_ifs at h with hb hk hm hg ht
    · rcases (by simpa using hb : c2 = 'B' ∨ c2 = 'b') with rfl | rfl <;>
        rcases (by simpa using hk : c1 = 'K' ∨ c1 = 'k') with rfl | rfl <;>
          simp [unitForms]
    · rcases (by simpa using hb : c2 = 'B' ∨ c2 = 'b') with rfl | rfl <;>
        rcases (by simpa using hm : c1 = 'M' ∨ c1 = 'm') with rfl | rfl <;>
          simp [unitForms]
    · rcases (by simpa using hb : c2 = 'B' ∨ c2 = 'b') with rfl | rfl <;>
        rcases (by simpa using hg : c1 = 'G' ∨ c1 = 'g') with rfl | rfl <;>
          simp [unitForms]
    · rcases (by simpa using hb : c2 = 'B' ∨ c2 = 'b') with rfl | rfl <;>
        rcases (by simpa using ht : c1 = 'T' ∨ c1 = 't') with rfl | rfl <;>
          simp [unitForms]
  · cases h

/-- Completeness of the multiplier table on the 27 unit forms. -/
theorem unitForms_mult {u : List Char} (h : u ∈ unitForms) :
    ∃ m, unitMultiplier u = some m := by
  fin_cases h <;> exact ⟨_, rfl⟩

theorem scanNumber_eq (cs : List Char) :
    scanNumber cs =
      if (cs.takeWhile Char.isDigit).isEmpty then none
      else
        match cs.dropWhile Char.isDigit with
        | c :: rest2 =>
          if c = '.' then
            if (rest2.takeWhile Char.isDigit).isEmpty then
              some ((digitsToNat (cs.takeWhile Char.isDigit), 0, 0),
                    cs.dropWhile Char.isDigit)
            else
              some ((digitsToNat (cs.takeWhile Char.isDigit),
                     digitsToNat (rest2.takeWhile Char.isDigit),
                     (rest2.takeWhile Char.isDigit).length),
                    rest2.dropWhile Char.isDigit)
          else some ((digitsToNat (cs.takeWhile Char.isDigit), 0, 0),
                     cs.dropWhile Char.isDigit)
        | [] => some ((digitsToNat (cs.takeWhile Char.isDigit), 0, 0),
                      cs.dropWhile Char.isDigit) := rfl

theorem isJsSpace_not_digit {c : Char} (hc : isJsSpace c = true) :
    Char.isDigit c = false := by
  unfold isJsSpace at hc
  simp only [Bool.or_eq_true, decide_eq_true_eq] at hc
  rcases hc with ((((rfl | rfl) | rfl) | rfl) | rfl) | rfl <;> decide

theorem unitForms_not_digit {u : List Char} (huf : u ∈ unitForms) :
    ∀ c ∈ u, Char.isDigit c = false := by
  intro c hc
  have h := List.all_eq_true.mp (unitForms_chars u huf) c hc
  simp only [Bool.and_eq_true, Bool.not_eq_true'] at h
  exact h.1.1

theorem unitForms_not_space {u : List Char} (huf : u ∈ unitForms) :
    ∀ c ∈ u, isJsSpace c = false := by
  intro c hc
  have h := List.all_eq_true.mp (unitForms_chars u huf) c hc
  simp only [Bool.and_eq_true, Bool.not_eq_true'] at h
  exact h.1.2

theorem unitForms_not_dot {u : List Char} (huf : u ∈ unitForms) :
    ∀ c ∈ u, c ≠ '.' := by
  intro c hc
  have h := List.all_eq_true.mp (unitForms_chars u huf) c hc
  simp only [Bool.and_eq_true, Bool.not_eq_true'] at h
  simpa using h.2

/-- The success set of `parseSize` is exactly the declarative size
grammar: a nonempty run of digits, an optional dot-plus-digits fraction,
optional whitespace, and a case-insensitive `[KMGT]?B?` unit. -/
theorem parseSize_ok_iff_grammar (s : String) :
    exceptOk (parseSize s) = true ↔ sizeGrammar s := by
  constructor
  · intro hok
    unfold parseSize at hok
    rcases hscan : scanNumber s.data with _ | ⟨⟨⟨i, f, l⟩, rest⟩⟩
    · rw [hscan] at hok
      simp [exceptOk] at hok
    · rw [hscan] at hok
      dsimp only at hok
      rcases hunit : unitMultiplier (rest.dropWhile isJsSpace) with _ | m
      · rw [hunit] at hok
        simp [exceptOk] at hok
      · have humem : (rest.dropWhile isJsSpace) ∈ unitForms :=
          unitMultiplier_mem hunit
        clear hok hunit
        rw [scanNumber_eq] at hscan
        by_cases hde : (s.data.takeWhile Char.isDigit).isEmpty = true
        · rw [if_pos hde] at hscan
          cases hscan
        · rw [if_neg hde] at hscan
          have hnil : s.data.takeWhile Char.isDigit ≠ [] := by
            intro hcontr
            exact hde (by rw [hcontr]; rfl)
          have hdig : ∀ c ∈ s.data.takeWhile Char.isDigit,
              Char.isDigit c = true := fun c hc => takeWhile_pred hc
          have hsplit0 : s.data.takeWhile Char.isDigit ++
              s.data.dropWhile Char.isDigit = s.data :=
            List.takeWhile_append_dropWhile _ _
          rcases hrest : s.data.dropWhile Char.isDigit with _ | ⟨c, rest2⟩
          · rw [hrest] at hscan
            simp only [Option.some.injEq, Prod.mk.injEq] at hscan
            obtain ⟨-, hr⟩ := hscan
            subst hr
            refine ⟨s.data.takeWhile Char.isDigit, [], [], [], false,
              ?_, hnil, hdig, ?_, ?_, ?_, ?_⟩
            · conv_lhs => rw [← hsplit0, hrest]
              simp
            · intro h
              cases h
            · intro _
              rfl
            · intro c hc
              cases hc
            · simp [unitForms]
          · rw [hrest] at hscan
            dsimp only at hscan
            by_cases hdot : c = '.'
            · rw [if_pos hdot] at hscan
              subst hdot
              by_cases hfe : (rest2.takeWhile Char.isDigit).isEmpty = true
              · rw [if_pos hfe] at hscan
                simp only [Option.some.injEq, Prod.mk.injEq] at hscan
                obtain ⟨-, hr⟩ := hscan
                subst hr
                rw [dropWhile_head_neg rest2
                  (by decide : isJsSpace '.' = false)] at humem
                have hch := unitForms_not_dot humem '.' (by simp)
                exact absurd rfl hch
              · rw [if_neg hfe] at hscan
                simp only [Option.some.injEq, Prod.mk.injEq] at hscan
                obtain ⟨-, hr⟩ := hscan
                have hfnil : rest2.takeWhile Char.isDigit ≠ [] := by
                  intro hcontr
                  exact hfe (by rw [hcontr]; rfl)
                have hfdig : ∀ c ∈ rest2.takeWhile Char.isDigit,
                    Char.isDigit c = true := fun c hc => takeWhile_pred hc
                have hsplit2 : rest2.takeWhile Char.isDigit ++ rest =
                    rest2 := by
                  rw [← hr]
                  exact List.takeWhile_append_dropWhile _ _
                have hsplit3 : rest.takeWhile isJsSpace ++
                    rest.dropWhile isJsSpace = rest :=
                  List.takeWhile_append_dropWhile _ _
                refine ⟨s.data.takeWhile Char.isDigit,
                  rest2.takeWhile Char.isDigit,
                  rest.takeWhile isJsSpace, rest.dropWhile isJsSpace, true,
                  ?_, hnil, hdig, ?_, ?_, ?_, humem⟩
                · conv_lhs => rw [← hsplit0, hrest]
                  conv_lhs => rw [← hsplit2]
                  conv_lhs => rw [← hsplit3]
                  simp
                · intro _
                  exact ⟨hfnil, hfdig⟩
                · intro h
                  cases h
                · intro c hc
                  exact takeWhile_pred hc
            · rw [if_neg hdot] at hscan
              simp only [Option.some.injEq, Prod.mk.injEq] at hscan
              obtain ⟨-, hr⟩ := hscan
              subst hr
              have hsplit3 : (c :: rest2).takeWhile isJsSpace ++
                  (c :: rest2).dropWhile isJsSpace = c :: rest2 :=
                List.takeWhile_append_dropWhile _ _
              refine ⟨s.data.takeWhile Char.isDigit, [],
                (c :: rest2).takeWhile isJsSpace,
                (c :: rest2).dropWhile isJsSpace, false,
                ?_, hnil, hdig, ?_, ?_, ?_, humem⟩
              · conv_lhs => rw [← hsplit0, hrest]
                conv_lhs => rw [← hsplit3]
                simp
              · intro h
                cases h
              · intro _
                rfl
              · intro c' hc'
                exact takeWhile_pred hc'
  · rintro ⟨ds, fsd, ws, u, hasFrac, hsplit, hne, hdig, hfs, hff, hws, huf⟩
    have hde : ds.isEmpty = false := by
      rcases ds with _ | ⟨a, t⟩
      · exact absurd rfl hne
      · rfl
    have htw : (ws ++ u).takeWhile Char.isDigit = [] := by
      rcases ws with _ | ⟨w, ws'⟩
      · rcases u with _ | ⟨c, u'⟩
        · rfl
        · exact takeWhile_head_neg _ (unitForms_not_digit huf c (by simp))
      · simp only [List.cons_append]
        exact takeWhile_head_neg _ (isJsSpace_not_digit (hws w (by simp)))
    have hdw : (ws ++ u).dropWhile Char.isDigit = ws ++ u := by
      rcases ws with _ | ⟨w, ws'⟩
      · rcases u with _ | ⟨c, u'⟩
        · rfl
        · exact dropWhile_head_neg _ (unitForms_not_digit huf c (by simp))
      · simp only [List.cons_append]
        exact dropWhile_head_neg _ (isJsSpace_not_digit (hws w (by simp)))
    have hdwspace : (ws ++ u).dropWhile isJsSpace = u := by
      rw [dropWhile_all_append hws]
      rcases u with _ | ⟨c, u'⟩
      · rfl
      · exact dropWhile_head_neg _ (unitForms_not_space huf c (by simp))
    obtain ⟨mu, hmu⟩ := unitForms_mult huf
    cases hasFrac
    · have hfsd : fsd = [] := hff rfl
      subst hfsd
      have hsplit' : s.data = ds ++ (ws ++ u) := by
        rw [hsplit]
        simp
      have h1 : s.data.takeWhile Char.isDigit = ds := by
        rw [hsplit', takeWhile_all_append hdig, htw]
        simp
      have h2 : s.data.dropWhile Char.isDigit = ws ++ u := by
        rw [hsplit', dropWhile_all_append hdig, hdw]
      unfold parseSize
      rw [scanNumber_eq, h1, h2]
      rw [if_neg (by rw [hde]; exact Bool.false_ne_true)]
      rcases hwu : ws ++ u with _ | ⟨c, tail⟩
      · obtain ⟨hwsnil, hunil⟩ := List.append_eq_nil.mp hwu
        subst hwsnil
        subst hunil
        simp [exceptOk, hmu]
      · have hcnotdot : ¬(c = '.') := by
          rcases ws with _ | ⟨w, ws'⟩
          · have hu' : u = c :: tail := by simpa using hwu
            exact unitForms_not_dot huf c (by rw [hu']; simp)
          · simp only [List.cons_append] at hwu
            injection hwu with hw htail
            have hwspace := hws w (by simp)
            rw [hw] at hwspace
            intro hdot
            rw [hdot] at hwspace
            exact absurd hwspace (by decide)
        dsimp only
        rw [if_neg hcnotdot]
        dsimp only
        rw [← hwu, hdwspace, hmu]
        simp [exceptOk]
    · obtain ⟨hfne, hfdig⟩ := hfs rfl
      have hsplit' : s.data = ds ++ ('.' :: (fsd ++ (ws ++ u))) := by
        rw [hsplit]
        simp
      have h1 : s.data.takeWhile Char.isDigit = ds := by
        rw [hsplit', takeWhile_all_append hdig,
            takeWhile_head_neg _ (by decide : Char.isDigit '.' = false)]
        simp
      have h2 : s.data.dropWhile Char.isDigit =
          '.' :: (fsd ++ (ws ++ u)) := by
        rw [hsplit', dropWhile_all_append hdig,
            dropWhile_head_neg _ (by decide : Char.isDigit '.' = false)]
      have hfr : (fsd ++ (ws ++ u)).takeWhile Char.isDigit = fsd := by
        rw [takeWhile_all_append hfdig, htw]
        simp
      have hdr : (fsd ++ (ws ++ u)).dropWhile Char.isDigit = ws ++ u := by
        rw [dropWhile_all_append hfdig, hdw]
      have hfde : fsd.isEmpty = false := by
        rcases fsd with _ | ⟨a, t⟩
        · exact absurd rfl hfne
        · rfl
      unfold parseSize
      rw [scanNumber_eq, h1, h2]
      rw [if_neg (by rw [hde]; exact Bool.false_ne_true)]
      dsimp only
      rw [if_pos rfl, hfr]
      rw [if_neg (by rw [hfde]; exact Bool.false_ne_true)]
      rw [hdr]
      dsimp only
      rw [hdwspace, hmu]
      simp [exceptOk]

/-- C7. `parseSize` maps a decimal number with an optional case-insensitive
`{B, KB, MB, GB, TB}` unit (trailing `B` optional) to a 1024-based byte
count, truncating fractional bytes toward zero — `10MB`, `1GB`, `500B`,
`10K` = `10KB` (also lowercase), `2.7B` = 2 — every grammar error is the
invalid-size-format error, and the successes are exactly the strings of
the number-plus-unit grammar (`bogus` is not one). -/
theorem parseSize_spec :
    parseSize "10MB" = .ok (10 * 1024 * 1024) ∧
    parseSize "1GB" = .ok (1024 * 1024 * 1024) ∧
    parseSize "500B" = .ok 500 ∧
    parseSize "10K" = parseSize "10KB" ∧
    parseSize "10kb" = .ok (10 * 1024) ∧
    parseSize "2.7B" = .ok 2 ∧
    parseSize "bogus" = .error (.invalidSizeFormat "bogus") ∧
    (∀ s e, parseSize s = .error e → e = .invalidSizeFormat s) ∧
    (∀ s, exceptOk (parseSize s) = true ↔ sizeGrammar s) := by
  refine ⟨rfl, rfl, rfl, rfl, rfl, rfl, rfl, ?_, parseSize_ok_iff_grammar⟩
  intro s e h
  unfold parseSize at h
  rcases hscan : scanNumber s.data with _ | ⟨⟨⟨i, f, l⟩, rest⟩⟩
  · rw [hscan] at h
    exact (Except.error.inj h).symm
  · rw [hscan] at h
    dsimp only at h
    rcases hunit : unitMultiplier (rest.dropWhile isJsSpace) with _ | m
    · rw [hunit] at h
      exact (Except.error.inj h).symm
    · rw [hunit] at h
      cases h

/-- Witness for C7: `10MB` belongs to the size grammar, obtained from the
equivalence at a successful parse. -/
theorem parseSize_spec_witness : sizeGrammar "10MB" :=
  (parseSize_spec.2.2.2.2.2.2.2.2 "10MB").mp rfl

end LogWriter
